import Mathlib

/-!
Verification development for the constant-product liquidity-swap contracts
(liquidity-swap and zk-liquidity-swap crates).

The pricing functions and the contract operations are translated from
src/liquidity-swap/src/lib.rs and src/zk-liquidity-swap/src/contract.rs and
src/zk-liquidity-swap/src/pairwise_token_balances.rs.  Token amounts are
unsigned 128-bit integers in the source; they are embedded as Nat with an
explicit bound U128_MOD = 2 ^ 128, and every arithmetic operation that can
exceed that bound aborts the operation (the repository builds contracts with
overflow checks, per the specification: arithmetic must fail, not silently
wrap, on overflow).  Fallible operations return Except values; an error means
the whole contract invocation aborts with no state change.
-/

namespace AMM

/-- Upper bound of unsigned 128-bit arithmetic. -/
def U128_MOD : Nat := 2 ^ 128

/-- Error kinds of the liquidity-swap contract, following the panic and
assertion messages of lib.rs and the specification error taxonomy. -/
inductive LsError where
  | overflow
  | insufficientBalance
  | divisionByZero
  | unknownToken
  | poolNotLiquid
  | alreadyLiquid
  | slippageExceeded
  | zeroLiquidityMinted
  | invalidConfiguration
  deriving DecidableEq

/-- Result of a fallible contract step. -/
abbrev LsRes (α : Type) : Type := Except LsError α

/-- The token enumeration: the two real tokens and the liquidity-share
pseudo-token.  Modelled from the spec: token_balances.rs is not under src;
the spec data model lists slots A, B and LIQUIDITY. -/
inductive Token where
  | A
  | B
  | LIQUIDITY
  deriving DecidableEq

/-- Per-address balance record holding the amounts of the three tokens.
Modelled from the spec: get_balance returns a record with fields a, b and
liquidity. -/
structure BalanceRec where
  a_tokens : Nat
  b_tokens : Nat
  liquidity_tokens : Nat
  deriving DecidableEq

/-- Amount of a given token held in a balance record. -/
def BalanceRec.get_amount_of (r : BalanceRec) (t : Token) : Nat :=
  match t with
  | Token.A => r.a_tokens
  | Token.B => r.b_tokens
  | Token.LIQUIDITY => r.liquidity_tokens

/-- Replace the amount of a given token in a balance record. -/
def BalanceRec.set_amount (r : BalanceRec) (t : Token) (v : Nat) : BalanceRec :=
  match t with
  | Token.A => { r with a_tokens := v }
  | Token.B => { r with b_tokens := v }
  | Token.LIQUIDITY => { r with liquidity_tokens := v }

/-- Addresses are embedded as natural numbers. -/
abbrev Address : Type := Nat

/-- The token-balance ledger of the contract.  Modelled from the spec:
token_balances.rs is not under src; the spec describes a durable mapping
from (address, token) to a 128-bit amount whose reads are zero-filled for
unknown addresses (entry removal is a pure storage optimization, not
observable), so the map is embedded as a total function into records. -/
structure TokenBalances where
  token_a_address : Address
  token_b_address : Address
  balances : Address → BalanceRec

/-- Fresh ledger with no balances. -/
def TokenBalances.init (token_a_address token_b_address : Address) : TokenBalances :=
  { token_a_address := token_a_address
    token_b_address := token_b_address
    balances := fun _ => ⟨0, 0, 0⟩ }

/-- Zero-filled read of the balance record of an address. -/
def TokenBalances.get_balance_for (tb : TokenBalances) (addr : Address) : BalanceRec :=
  tb.balances addr

/-- Ledger with one (address, token) amount replaced. -/
def TokenBalances.updBal (tb : TokenBalances) (addr : Address) (t : Token) (v : Nat) :
    TokenBalances :=
  { tb with balances := fun y => if y = addr then (tb.balances addr).set_amount t v else tb.balances y }

/-- Modelled from the spec: deposit adds the amount to the balance of the
address for the token and fails with Overflow if the addition would exceed
the unsigned 128-bit range. -/
def TokenBalances.add_to_token_balance (tb : TokenBalances) (addr : Address) (t : Token)
    (amount : Nat) : LsRes TokenBalances :=
  if (tb.balances addr).get_amount_of t + amount < U128_MOD then
    Except.ok (tb.updBal addr t ((tb.balances addr).get_amount_of t + amount))
  else Except.error LsError.overflow

/-- Modelled from the spec: withdraw subtracts the amount and fails with
InsufficientBalance if the amount exceeds the current balance. -/
def TokenBalances.deduct_from_token_balance (tb : TokenBalances) (addr : Address) (t : Token)
    (amount : Nat) : LsRes TokenBalances :=
  if amount ≤ (tb.balances addr).get_amount_of t then
    Except.ok (tb.updBal addr t ((tb.balances addr).get_amount_of t - amount))
  else Except.error LsError.insufficientBalance

/-- Modelled from the spec: move is the atomic combination of withdraw from
the source followed by deposit to the destination. -/
def TokenBalances.move_tokens (tb : TokenBalances) (src dst : Address) (t : Token)
    (amount : Nat) : LsRes TokenBalances :=
  match tb.deduct_from_token_balance src t amount with
  | Except.error e => Except.error e
  | Except.ok tb1 => tb1.add_to_token_balance dst t amount

/-- Resolution of an external token address to the (input, output) pair of
logical tokens; fails when the address matches neither configured token. -/
def TokenBalances.deduce_tokens_in_out (tb : TokenBalances) (token_address : Address) :
    LsRes (Token × Token) :=
  if token_address = tb.token_a_address then Except.ok (Token.A, Token.B)
  else if token_address = tb.token_b_address then Except.ok (Token.B, Token.A)
  else Except.error LsError.unknownToken

/-- The persisted state of the liquidity-swap contract (lib.rs,
LiquiditySwapContractState). -/
structure LiquiditySwapContractState where
  liquidity_pool_address : Address
  swap_fee_per_mille : Nat
  token_balances : TokenBalances

/-- Checks that the pools of the contract have liquidity (lib.rs,
contract_pools_have_liquidity): both own reserves non-zero. -/
def contract_pools_have_liquidity (st : LiquiditySwapContractState) : Bool :=
  let b := st.token_balances.get_balance_for st.liquidity_pool_address
  (b.a_tokens != 0) && (b.b_tokens != 0)

/-- Contract creation (lib.rs, the init entry point): stores the pool
address and fee and creates an empty ledger; aborts when the fee is outside
the allowed per-mille range or the two token addresses coincide (the state
validity predicate). -/
def init_contract (contract_address token_a_address token_b_address : Address)
    (swap_fee_per_mille : Nat) : LsRes LiquiditySwapContractState :=
  if swap_fee_per_mille ≤ 1000 ∧ token_a_address ≠ token_b_address then
    Except.ok
      { liquidity_pool_address := contract_address
        swap_fee_per_mille := swap_fee_per_mille
        token_balances := TokenBalances.init token_a_address token_b_address }
  else Except.error LsError.invalidConfiguration

/-- Swap pricing (lib.rs, calculate_swap_to_amount).  The subtraction
1000 - fee is on u16 and the products and sums are on u128; each aborts on
leaving its range, and the division aborts on a zero denominator. -/
def calculate_swap_to_amount (pool_token_in pool_token_out swap_amount_in
    swap_fee_per_mille : Nat) : LsRes Nat :=
  if 1000 < swap_fee_per_mille then Except.error LsError.overflow else
  if (1000 - swap_fee_per_mille) * swap_amount_in < U128_MOD then
    if (1000 - swap_fee_per_mille) * swap_amount_in * pool_token_out < U128_MOD then
      if 1000 * pool_token_in < U128_MOD then
        if 1000 * pool_token_in + (1000 - swap_fee_per_mille) * swap_amount_in < U128_MOD then
          if 1000 * pool_token_in + (1000 - swap_fee_per_mille) * swap_amount_in = 0 then
            Except.error LsError.divisionByZero
          else
            Except.ok ((1000 - swap_fee_per_mille) * swap_amount_in * pool_token_out /
              (1000 * pool_token_in + (1000 - swap_fee_per_mille) * swap_amount_in))
        else Except.error LsError.overflow
      else Except.error LsError.overflow
    else Except.error LsError.overflow
  else Except.error LsError.overflow

/-- Liquidity-provision pricing (lib.rs,
calculate_equivalent_and_minted_tokens): the token_out equivalent carries a
plus-one bias and the minted share count rounds down. -/
def calculate_equivalent_and_minted_tokens (token_in_amount token_in_pool token_out_pool
    total_minted_liquidity : Nat) : LsRes (Nat × Nat) :=
  if 0 < token_in_amount then
    if token_in_amount * token_out_pool < U128_MOD then
      if token_in_pool = 0 then Except.error LsError.divisionByZero
      else if token_in_amount * token_out_pool / token_in_pool + 1 < U128_MOD then
        if token_in_amount * total_minted_liquidity < U128_MOD then
          if token_in_pool = 0 then Except.error LsError.divisionByZero
          else Except.ok (token_in_amount * token_out_pool / token_in_pool + 1,
            token_in_amount * total_minted_liquidity / token_in_pool)
        else Except.error LsError.overflow
      else Except.error LsError.overflow
    else Except.error LsError.overflow
  else
    if token_in_amount * total_minted_liquidity < U128_MOD then
      if token_in_pool = 0 then Except.error LsError.divisionByZero
      else Except.ok (0, token_in_amount * total_minted_liquidity / token_in_pool)
    else Except.error LsError.overflow

/-- Redemption pricing (lib.rs, calculate_reclaim_output): proportional
floor division of each reserve. -/
def calculate_reclaim_output (liquidity_token_amount pool_a pool_b minted_liquidity : Nat) :
    LsRes (Nat × Nat) :=
  if pool_a * liquidity_token_amount < U128_MOD then
    if pool_b * liquidity_token_amount < U128_MOD then
      if minted_liquidity = 0 then Except.error LsError.divisionByZero
      else Except.ok (pool_a * liquidity_token_amount / minted_liquidity,
                      pool_b * liquidity_token_amount / minted_liquidity)
    else Except.error LsError.overflow
  else Except.error LsError.overflow

/-- Bounded linear search for the floor square root: from candidate r, climb
while the next square still fits under n. -/
def sqrtGo (n : Nat) : Nat → Nat → Nat
  | 0, r => r
  | fuel + 1, r => if (r + 1) * (r + 1) ≤ n then sqrtGo n fuel (r + 1) else r

/-- The integer square root used by the initial share minting.  Modelled
from the spec: math.rs is not under src; the spec requires the floor square
root, rounding down and exact on perfect squares (proved below equal to
Nat.sqrt). -/
def u128_sqrt (n : Nat) : Nat := sqrtGo n n 0

/-- Initial share minting (lib.rs, initial_liquidity_tokens): the floor
square root of the product of the two seeded amounts; the multiplication is
on u128 and aborts beyond the range. -/
def initial_liquidity_tokens (token_a_amount token_b_amount : Nat) : LsRes Nat :=
  if token_a_amount * token_b_amount < U128_MOD then
    Except.ok (u128_sqrt (token_a_amount * token_b_amount))
  else Except.error LsError.overflow

/-- The crediting step of a deposit (lib.rs, deposit_callback): after the
external transfer is confirmed, the amount is added to the balance of the
calling user. -/
def deposit_callback (st : LiquiditySwapContractState) (sender : Address) (t : Token)
    (amount : Nat) : LsRes LiquiditySwapContractState :=
  match st.token_balances.add_to_token_balance sender t amount with
  | Except.error e => Except.error e
  | Except.ok tb => Except.ok { st with token_balances := tb }

/-- Withdraw (lib.rs, withdraw): resolves the token and debits the balance
of the calling user; the outbound transfer instruction is handed to the
external collaborator and is not part of the ledger state. -/
def withdraw (st : LiquiditySwapContractState) (sender token_address : Address)
    (amount : Nat) : LsRes LiquiditySwapContractState :=
  match st.token_balances.deduce_tokens_in_out token_address with
  | Except.error e => Except.error e
  | Except.ok tokens =>
    match st.token_balances.deduct_from_token_balance sender tokens.fst amount with
    | Except.error e => Except.error e
    | Except.ok tb => Except.ok { st with token_balances := tb }

/-- Swap (lib.rs, swap): requires liquid pools, prices the output, checks
the slippage bound and moves the input from the user to the pool and the
output from the pool to the user. -/
def swap (st : LiquiditySwapContractState) (sender token_in : Address)
    (amount_in amount_out_minimum : Nat) : LsRes LiquiditySwapContractState :=
  if contract_pools_have_liquidity st = false then Except.error LsError.poolNotLiquid else
  match st.token_balances.deduce_tokens_in_out token_in with
  | Except.error e => Except.error e
  | Except.ok tokens =>
    let cb := st.token_balances.get_balance_for st.liquidity_pool_address
    match calculate_swap_to_amount (cb.get_amount_of tokens.fst) (cb.get_amount_of tokens.snd)
        amount_in st.swap_fee_per_mille with
    | Except.error e => Except.error e
    | Except.ok amount_out =>
      if amount_out < amount_out_minimum then Except.error LsError.slippageExceeded else
      match st.token_balances.move_tokens sender st.liquidity_pool_address tokens.fst amount_in with
      | Except.error e => Except.error e
      | Except.ok tb1 =>
        match tb1.move_tokens st.liquidity_pool_address sender tokens.snd amount_out with
        | Except.error e => Except.error e
        | Except.ok tb2 => Except.ok { st with token_balances := tb2 }

/-- Shared tail of the two liquidity-provision operations (lib.rs,
provide_liquidity_internal): move both token amounts from the user to the
pool and mint the liquidity tokens to the user and to the pool accounting
balance. -/
def provide_liquidity_internal (st : LiquiditySwapContractState) (user : Address)
    (tokens : Token × Token) (token_in_amount token_out_amount minted_liquidity_tokens : Nat) :
    LsRes LiquiditySwapContractState :=
  match st.token_balances.move_tokens user st.liquidity_pool_address tokens.fst token_in_amount with
  | Except.error e => Except.error e
  | Except.ok tb1 =>
    match tb1.move_tokens user st.liquidity_pool_address tokens.snd token_out_amount with
    | Except.error e => Except.error e
    | Except.ok tb2 =>
      match tb2.add_to_token_balance user Token.LIQUIDITY minted_liquidity_tokens with
      | Except.error e => Except.error e
      | Except.ok tb3 =>
        match tb3.add_to_token_balance st.liquidity_pool_address Token.LIQUIDITY
            minted_liquidity_tokens with
        | Except.error e => Except.error e
        | Except.ok tb4 => Except.ok { st with token_balances := tb4 }

/-- Provide liquidity (lib.rs, provide_liquidity): prices the equivalent
amount and the minted shares from the current reserves, rejects a
zero-share provision, then applies the internal provision. -/
def provide_liquidity (st : LiquiditySwapContractState) (sender token_address : Address)
    (amount : Nat) : LsRes LiquiditySwapContractState :=
  match st.token_balances.deduce_tokens_in_out token_address with
  | Except.error e => Except.error e
  | Except.ok tokens =>
    let cb := st.token_balances.get_balance_for st.liquidity_pool_address
    match calculate_equivalent_and_minted_tokens amount (cb.get_amount_of tokens.fst)
        (cb.get_amount_of tokens.snd) cb.liquidity_tokens with
    | Except.error e => Except.error e
    | Except.ok result =>
      if result.snd = 0 then Except.error LsError.zeroLiquidityMinted
      else provide_liquidity_internal st sender tokens amount result.fst result.snd

/-- Provide initial liquidity (lib.rs, provide_initial_liquidity): only on a
pool without liquidity; mints the floor square root of the product and
applies the internal provision in the fixed A-in / B-out orientation. -/
def provide_initial_liquidity (st : LiquiditySwapContractState) (sender : Address)
    (token_a_amount token_b_amount : Nat) : LsRes LiquiditySwapContractState :=
  if contract_pools_have_liquidity st = true then Except.error LsError.alreadyLiquid else
  match initial_liquidity_tokens token_a_amount token_b_amount with
  | Except.error e => Except.error e
  | Except.ok minted =>
    if minted = 0 then Except.error LsError.zeroLiquidityMinted
    else provide_liquidity_internal st sender (Token.A, Token.B) token_a_amount token_b_amount minted

/-- Reclaim liquidity (lib.rs, reclaim_liquidity): burns the shares from the
user, prices the redemption against the current reserves and total minted
supply, moves both amounts from the pool to the user and burns the same
share count from the pool accounting balance. -/
def reclaim_liquidity (st : LiquiditySwapContractState) (sender : Address)
    (liquidity_token_amount : Nat) : LsRes LiquiditySwapContractState :=
  match st.token_balances.deduct_from_token_balance sender Token.LIQUIDITY
      liquidity_token_amount with
  | Except.error e => Except.error e
  | Except.ok tb0 =>
    let st0 : LiquiditySwapContractState := { st with token_balances := tb0 }
    let cb := st0.token_balances.get_balance_for st0.liquidity_pool_address
    match calculate_reclaim_output liquidity_token_amount cb.a_tokens cb.b_tokens
        cb.liquidity_tokens with
    | Except.error e => Except.error e
    | Except.ok outputs =>
      match st0.token_balances.move_tokens st0.liquidity_pool_address sender Token.A
          outputs.fst with
      | Except.error e => Except.error e
      | Except.ok tb1 =>
        match tb1.move_tokens st0.liquidity_pool_address sender Token.B outputs.snd with
        | Except.error e => Except.error e
        | Except.ok tb2 =>
          match tb2.deduct_from_token_balance st0.liquidity_pool_address Token.LIQUIDITY
              liquidity_token_amount with
          | Except.error e => Except.error e
          | Except.ok tb3 => Except.ok { st with token_balances := tb3 }

/-- The constant-product value of the pool reserves. -/
def poolProduct (st : LiquiditySwapContractState) : Nat :=
  let b := st.token_balances.get_balance_for st.liquidity_pool_address
  b.a_tokens * b.b_tokens

/-- Arguments of one swap invocation. -/
structure SwapOp where
  user : Address
  token_in : Address
  amount_in : Nat
  amount_out_minimum : Nat

/-- A sequence of swap operations, applied left to right; any failure aborts
the remainder of the sequence. -/
def applySwaps (st : LiquiditySwapContractState) : List SwapOp →
    LsRes LiquiditySwapContractState
  | [] => Except.ok st
  | op :: ops =>
    match swap st op.user op.token_in op.amount_in op.amount_out_minimum with
    | Except.error e => Except.error e
    | Except.ok st1 => applySwaps st1 ops

end AMM

namespace Zk

/-- Token enumeration of the zk variant (pairwise_token_balances.rs): the two
real tokens only. -/
inductive ZToken where
  | A
  | B
  deriving DecidableEq

/-- Per-user balances of the two tokens (pairwise_token_balances.rs, Balance). -/
structure Balance where
  pool_a_balance : Nat
  pool_b_balance : Nat
  deriving DecidableEq

/-- Balance of the given token (pairwise_token_balances.rs, for_token). -/
def Balance.for_token (b : Balance) (t : ZToken) : Nat :=
  match t with
  | ZToken.A => b.pool_a_balance
  | ZToken.B => b.pool_b_balance

/-- Balance with the amount of one token replaced (the mutation through
get_mut_balance_for in the source). -/
def Balance.set_token (b : Balance) (t : ZToken) (v : Nat) : Balance :=
  match t with
  | ZToken.A => { b with pool_a_balance := v }
  | ZToken.B => { b with pool_b_balance := v }

/-- True if both balances are zero (pairwise_token_balances.rs, is_empty). -/
def Balance.is_empty (b : Balance) : Bool :=
  b.pool_a_balance == 0 && b.pool_b_balance == 0

/-- The zero balance record (pairwise_token_balances.rs, EMPTY_BALANCE). -/
def EMPTY_BALANCE : Balance := ⟨0, 0⟩

/-- Failure cases of the zk contract, mirroring the error strings and panics
of contract.rs and pairwise_token_balances.rs. -/
inductive ZkMsg where
  | needExistingBalance
  | insufficientFunds
  | overflowInTokenPool
  | underflowInTokenPool
  | divisionByZero
  | balanceOverflow
  | productOverflow
  | invariantViolated
  | emptyWorklist
  deriving DecidableEq

/-- Failure channel: caught failures are Result errors that callers may
handle; fatal failures are panics that abort the whole invocation. -/
inductive ZErr where
  | caught (m : ZkMsg)
  | fatal (m : ZkMsg)
  deriving DecidableEq

/-- Result of a fallible zk contract step. -/
abbrev ZRes (α : Type) : Type := Except ZErr α

/-- The generalized token balance map (pairwise_token_balances.rs,
PairwiseTokenBalances).  The SortedVecMap is embedded as a partial map so
that entry insertion and removal stay observable. -/
structure PairwiseTokenBalances where
  token_a : Nat
  token_b : Nat
  balances : Nat → Option Balance

/-- Balance lookup with the empty default (pairwise_token_balances.rs,
get_balance). -/
def PairwiseTokenBalances.get_balance (tb : PairwiseTokenBalances) (user : Nat) : Balance :=
  (tb.balances user).getD EMPTY_BALANCE

/-- Deposit (pairwise_token_balances.rs, deposit_to_user_balance): inserts an
empty entry when the user is unknown, then adds the amount with a plain
addition; the addition aborting on unsigned 128-bit overflow is modelled from
the spec (arithmetic must fail, not silently wrap, on overflow). -/
def PairwiseTokenBalances.deposit_to_user_balance (tb : PairwiseTokenBalances) (user : Nat)
    (t : ZToken) (amount : Nat) : ZRes PairwiseTokenBalances :=
  if (tb.get_balance user).for_token t + amount < AMM.U128_MOD then
    let nb : Nat → Option Balance := fun y =>
      if y = user then
        some ((tb.get_balance user).set_token t
          ((tb.get_balance user).for_token t + amount))
      else tb.balances y
    Except.ok { tb with balances := nb }
  else Except.error (ZErr.fatal ZkMsg.balanceOverflow)

/-- Withdraw (pairwise_token_balances.rs, withdraw_from_user_balance):
requires an existing entry, checks the subtraction, and removes the entry
when it becomes empty. -/
def PairwiseTokenBalances.withdraw_from_user_balance (tb : PairwiseTokenBalances) (user : Nat)
    (t : ZToken) (amount : Nat) : ZRes PairwiseTokenBalances :=
  match tb.balances user with
  | none => Except.error (ZErr.caught ZkMsg.needExistingBalance)
  | some cur =>
    if amount ≤ cur.for_token t then
      let nb : Nat → Option Balance := fun y =>
        if y = user then
          (if (cur.set_token t (cur.for_token t - amount)).is_empty = true then none
           else some (cur.set_token t (cur.for_token t - amount)))
        else tb.balances y
      Except.ok { tb with balances := nb }
    else Except.error (ZErr.caught ZkMsg.insufficientFunds)

/-- Transfer (pairwise_token_balances.rs, transfer_from_to): withdraw from
the source, then deposit to the destination. -/
def PairwiseTokenBalances.transfer_from_to (tb : PairwiseTokenBalances) (src dst : Nat)
    (t : ZToken) (amount : Nat) : ZRes PairwiseTokenBalances :=
  match tb.withdraw_from_user_balance src t amount with
  | Except.error e => Except.error e
  | Except.ok tb1 => tb1.deposit_to_user_balance dst t amount

/-- Token-direction resolution (pairwise_token_balances.rs,
deduce_from_to_tokens_b). -/
def deduce_from_to_tokens_b (is_from_a : Bool) : ZToken × ZToken :=
  if is_from_a then (ZToken.A, ZToken.B) else (ZToken.B, ZToken.A)

/-- A worklist entry (contract.rs, WorklistEntry). -/
structure WorklistEntry where
  variable_id : Nat
  sender : Nat
  deriving DecidableEq

/-- The persisted state of the zk contract (contract.rs, ContractState). -/
structure ContractState where
  contract_owner : Nat
  token_pool_address : Nat
  swap_constant : Nat
  is_closed : Bool
  balances : PairwiseTokenBalances
  worklist : List WorklistEntry
  unused_variables : List Nat

/-- The pool balance record (contract.rs, get_pools). -/
def get_pools (st : ContractState) : Balance :=
  st.balances.get_balance st.token_pool_address

/-- Invariant assertion (contract.rs, assert_invariants): the pool product
must be at least the swap constant; the u128 multiplication aborts beyond
the 128-bit range, and a failed assertion panics. -/
def assert_invariants (st : ContractState) : ZRes Unit :=
  if (get_pools st).for_token ZToken.A * (get_pools st).for_token ZToken.B < AMM.U128_MOD then
    if st.swap_constant ≤ (get_pools st).for_token ZToken.A * (get_pools st).for_token ZToken.B
    then Except.ok PUnit.unit
    else Except.error (ZErr.fatal ZkMsg.invariantViolated)
  else Except.error (ZErr.fatal ZkMsg.productOverflow)

/-- Ceiling division (contract.rs, u128_division_ceil): floor quotient plus
one when a remainder exists; checked division and remainder give an error on
a zero denominator. -/
def u128_division_ceil (numerator denominator : Nat) : ZRes Nat :=
  if denominator = 0 then Except.error (ZErr.caught ZkMsg.divisionByZero)
  else Except.ok (numerator / denominator +
    if numerator % denominator = 0 then 0 else 1)

/-- Swap pricing of the zk contract (contract.rs, calculate_token_to_amount):
enlarges the input-side pool by the sent amount with a checked addition,
computes the new output-side pool as the ceiling of the swap constant over
the enlarged pool, and returns the checked difference from the old
output-side pool. -/
def calculate_token_to_amount (st : ContractState) (token_from token_to : ZToken)
    (token_from_sent_amount : Nat) : ZRes Nat :=
  if (get_pools st).for_token token_from + token_from_sent_amount < AMM.U128_MOD then
    match u128_division_ceil st.swap_constant
        ((get_pools st).for_token token_from + token_from_sent_amount) with
    | Except.error e => Except.error e
    | Except.ok new_to_pool_value =>
      if new_to_pool_value ≤ (get_pools st).for_token token_to then
        Except.ok ((get_pools st).for_token token_to - new_to_pool_value)
      else Except.error (ZErr.caught ZkMsg.underflowInTokenPool)
  else Except.error (ZErr.caught ZkMsg.overflowInTokenPool)

/-- One swap execution (contract.rs, perform_swap): prices the output, then
applies the two transfers to a copy of the state and asserts the invariant;
a caught error leaves the original state to the caller. -/
def perform_swap (st : ContractState) (sender : Nat) (token_from token_to : ZToken)
    (token_from_sent_amount : Nat) : ZRes ContractState :=
  match calculate_token_to_amount st token_from token_to token_from_sent_amount with
  | Except.error e => Except.error e
  | Except.ok token_to_revc_amount =>
    match st.balances.transfer_from_to sender st.token_pool_address token_from
        token_from_sent_amount with
    | Except.error e => Except.error e
    | Except.ok b1 =>
      match b1.transfer_from_to st.token_pool_address sender token_to
          token_to_revc_amount with
      | Except.error e => Except.error e
      | Except.ok b2 =>
        match assert_invariants { st with balances := b2 } with
        | Except.error e => Except.error e
        | Except.ok _ => Except.ok { st with balances := b2 }

/-- The opened swap data (contract.rs, AmountAndDirection). -/
structure AmountAndDirection where
  amount : Nat
  is_from_a : Bool

/-- Zk state changes emitted by the handlers (the subset of the host SDK
used by contract.rs). -/
inductive ZkStateChange where
  | outputComplete (variables_to_delete : List Nat)
  | startComputation (variable_id : Nat)
  deriving DecidableEq

/-- Start of the next queued swap (contract.rs, start_next_in_queue). -/
def start_next_in_queue (st : ContractState) : ContractState × List ZkStateChange :=
  match st.worklist with
  | [] => (st, [])
  | e :: _ => (st, [ZkStateChange.startComputation e.variable_id])

/-- The opened-variable handler (contract.rs, swap_opened): pops the
worklist, reads the opened amount and direction (passed here as a parameter
together with the id of the opened result variable), performs the swap,
keeping the popped pre-swap state when the swap returns a caught error, then
deletes the consumed variables and starts the next queued swap.  The handler
emits no outbound event groups, so the sender never observes a failure. -/
def swap_opened (st : ContractState) (aad : AmountAndDirection) (opened_variable_id : Nat) :
    ZRes (ContractState × List Nat × List ZkStateChange) :=
  match st.worklist with
  | [] => Except.error (ZErr.fatal ZkMsg.emptyWorklist)
  | entry :: rest =>
    let st1 : ContractState := { st with worklist := rest, unused_variables := [] }
    let tokens := deduce_from_to_tokens_b aad.is_from_a
    let variables_to_delete := st.unused_variables ++ [entry.variable_id, opened_variable_id]
    match perform_swap st1 entry.sender tokens.fst tokens.snd aad.amount with
    | Except.error (ZErr.fatal m) => Except.error (ZErr.fatal m)
    | Except.error (ZErr.caught _) =>
      Except.ok ((start_next_in_queue st1).fst, [],
        ZkStateChange.outputComplete variables_to_delete :: (start_next_in_queue st1).snd)
    | Except.ok st2 =>
      Except.ok ((start_next_in_queue st2).fst, [],
        ZkStateChange.outputComplete variables_to_delete :: (start_next_in_queue st2).snd)

end Zk

namespace Zk

/-- Concrete zk contract state with a queued swap from user 5, who holds no
balance entry, so the dequeued swap fails and must be rolled back. -/
def c9_state : ContractState :=
  { contract_owner := 9
    token_pool_address := 0
    swap_constant := 100
    is_closed := false
    balances :=
      { token_a := 1
        token_b := 2
        balances := fun y => if y = 0 then some ⟨10, 10⟩ else none }
    worklist := [⟨7, 5⟩]
    unused_variables := [3] }

/-- Concrete zk contract state for a successful swap: pool (10, 10) with
swap constant 100, user 5 holding 5 token A. -/
def c10_state : ContractState :=
  { contract_owner := 9
    token_pool_address := 0
    swap_constant := 100
    is_closed := false
    balances :=
      { token_a := 1
        token_b := 2
        balances := fun y => if y = 0 then some ⟨10, 10⟩
          else if y = 5 then some ⟨5, 0⟩ else none }
    worklist := []
    unused_variables := [] }

/-- Result of user 5 swapping 5 token A on the concrete zk state. -/
def c10_state2 : ContractState :=
  match perform_swap c10_state 5 ZToken.A ZToken.B 5 with
  | Except.ok s => s
  | Except.error _ => c10_state

end Zk

namespace AMM

/-- Concrete pool state used by witnesses: pool address 0 with reserves
(1000, 1000) and 100 minted shares, fee 3 per mille, and user 5 holding 50
of each real token. -/
def c1_state : LiquiditySwapContractState :=
  { liquidity_pool_address := 0
    swap_fee_per_mille := 3
    token_balances :=
      { token_a_address := 1
        token_b_address := 2
        balances := fun a =>
          if a = 0 then ⟨1000, 1000, 100⟩ else if a = 5 then ⟨50, 50, 0⟩ else ⟨0, 0, 0⟩ } }

/-- Two opposite-direction swaps by user 5. -/
def c1_ops : List SwapOp := [⟨5, 1, 10, 0⟩, ⟨5, 2, 10, 0⟩]

/-- Result state of the two-swap sequence on the concrete pool. -/
def c1_state2 : LiquiditySwapContractState :=
  match applySwaps c1_state c1_ops with
  | Except.ok s => s
  | Except.error _ => c1_state

/-- Result state of the single first swap on the concrete pool. -/
def c1_state3 : LiquiditySwapContractState :=
  match swap c1_state 5 1 10 0 with
  | Except.ok s => s
  | Except.error _ => c1_state

/-- State reached from the concrete pool by the deposit crediting callback
adding 7 token-A units to user 5. -/
def c3_state_dep : LiquiditySwapContractState :=
  match deposit_callback c1_state 5 Token.A 7 with
  | Except.ok s => s
  | Except.error _ => c1_state

/-- Concrete pool used by the round-trip witness: reserves (100, 200), 50
minted shares, user 5 holding (30, 40). -/
def c5_state : LiquiditySwapContractState :=
  { liquidity_pool_address := 0
    swap_fee_per_mille := 3
    token_balances :=
      { token_a_address := 1
        token_b_address := 2
        balances := fun a =>
          if a = 0 then ⟨100, 200, 50⟩ else if a = 5 then ⟨30, 40, 0⟩ else ⟨0, 0, 0⟩ } }

/-- State after user 5 provides 10 token A to the round-trip pool. -/
def c5_state1 : LiquiditySwapContractState :=
  match provide_liquidity c5_state 5 1 10 with
  | Except.ok s => s
  | Except.error _ => c5_state

/-- State after user 5 reclaims the 5 freshly minted shares. -/
def c5_state2 : LiquiditySwapContractState :=
  match reclaim_liquidity c5_state1 5 5 with
  | Except.ok s => s
  | Except.error _ => c5_state

/-- Whether an operation result is a success. -/
def lsIsOk {α : Type} (r : LsRes α) : Bool :=
  match r with
  | Except.ok _ => true
  | Except.error _ => false

/-- Freshly initialized contract: pool address 0, tokens 1 and 2, fee 3,
empty ledger (both reserves zero). -/
def c7_state : LiquiditySwapContractState :=
  match init_contract 0 1 2 3 with
  | Except.ok s => s
  | Except.error _ =>
    { liquidity_pool_address := 0
      swap_fee_per_mille := 3
      token_balances := TokenBalances.init 1 2 }

/-- Freshly initialized contract for the lifecycle counterexample. -/
def c8_state0 : LiquiditySwapContractState :=
  match init_contract 0 1 2 3 with
  | Except.ok s => s
  | Except.error _ =>
    { liquidity_pool_address := 0
      swap_fee_per_mille := 3
      token_balances := TokenBalances.init 1 2 }

/-- After user 5 is credited 10 token A. -/
def c8_state1 : LiquiditySwapContractState :=
  match deposit_callback c8_state0 5 Token.A 10 with
  | Except.ok s => s
  | Except.error _ => c8_state0

/-- After user 5 is credited 10 token B. -/
def c8_state2 : LiquiditySwapContractState :=
  match deposit_callback c8_state1 5 Token.B 10 with
  | Except.ok s => s
  | Except.error _ => c8_state1

/-- After user 5 provides initial liquidity (4, 9), minting 6 shares. -/
def c8_state3 : LiquiditySwapContractState :=
  match provide_initial_liquidity c8_state2 5 4 9 with
  | Except.ok s => s
  | Except.error _ => c8_state2

/-- After user 5 reclaims all 6 shares, draining both reserves. -/
def c8_state4 : LiquiditySwapContractState :=
  match reclaim_liquidity c8_state3 5 6 with
  | Except.ok s => s
  | Except.error _ => c8_state3

/-- The shape of every Uninitialized-phase state reachable from
initialization: both pool reserves are zero. -/
abbrev pool_both_zero (st : LiquiditySwapContractState) : Prop :=
  (st.token_balances.balances st.liquidity_pool_address).a_tokens = 0 ∧
  (st.token_balances.balances st.liquidity_pool_address).b_tokens = 0

/-- The pool phase invariant: the reserves are either both zero
(Uninitialized) or both non-zero (Active). -/
abbrev pool_phase_ok (st : LiquiditySwapContractState) : Prop :=
  pool_both_zero st ∨ contract_pools_have_liquidity st = true

/-- Uninitialized-phase pool that still tracks 4 liquidity shares, with
user 5 holding 4 shares, used to witness reclaim on a drained pool. -/
def c8e_state : LiquiditySwapContractState :=
  { liquidity_pool_address := 0
    swap_fee_per_mille := 3
    token_balances :=
      { token_a_address := 1
        token_b_address := 2
        balances := fun a =>
          if a = 0 then ⟨0, 0, 4⟩ else if a = 5 then ⟨0, 0, 4⟩ else ⟨0, 0, 0⟩ } }

/-- After user 5 reclaims 2 shares from the drained pool. -/
def c8e_state2 : LiquiditySwapContractState :=
  match reclaim_liquidity c8e_state 5 2 with
  | Except.ok s => s
  | Except.error _ => c8e_state

/-- After user 5 withdraws 10 token A from the concrete Active pool. -/
def c8w_state : LiquiditySwapContractState :=
  match withdraw c1_state 5 1 10 with
  | Except.ok s => s
  | Except.error _ => c1_state

/-- Point update of a balance map. -/
def updFn (bs : Address → BalanceRec) (addr : Address) (rec2 : BalanceRec) :
    Address → BalanceRec :=
  fun y => if y = addr then rec2 else bs y

/-- Sum of the balances of one token over a list of addresses. -/
def sumBal (bs : Address → BalanceRec) (t : Token) (L : List Address) : Nat :=
  (L.map fun a => (bs a).get_amount_of t).sum

end AMM

namespace AMM

theorem get_set_same (r : BalanceRec) (t : Token) (v : Nat) :
    (r.set_amount t v).get_amount_of t = v := by
  cases t <;> rfl

theorem get_set_other (r : BalanceRec) (t t2 : Token) (v : Nat) (h : t2 ≠ t) :
    (r.set_amount t v).get_amount_of t2 = r.get_amount_of t2 := by
  cases t <;> cases t2 <;>
    simp_all [BalanceRec.set_amount, BalanceRec.get_amount_of]

theorem set_get_self (r : BalanceRec) (t : Token) :
    r.set_amount t (r.get_amount_of t) = r := by
  cases t <;> rfl

theorem updBal_at_same (tb : TokenBalances) (addr : Address) (t : Token) (v : Nat) :
    (tb.updBal addr t v).balances addr = (tb.balances addr).set_amount t v := by
  simp [TokenBalances.updBal]

theorem updBal_at_other (tb : TokenBalances) (addr : Address) (t : Token) (v : Nat)
    (y : Address) (h : y ≠ addr) : (tb.updBal addr t v).balances y = tb.balances y := by
  simp [TokenBalances.updBal, h]

theorem updBal_addr_fields (tb : TokenBalances) (addr : Address) (t : Token) (v : Nat) :
    (tb.updBal addr t v).token_a_address = tb.token_a_address ∧
    (tb.updBal addr t v).token_b_address = tb.token_b_address := by
  constructor <;> rfl

theorem add_ok_iff (tb : TokenBalances) (addr : Address) (t : Token) (x : Nat)
    (tb2 : TokenBalances) :
    tb.add_to_token_balance addr t x = Except.ok tb2 ↔
      (tb.balances addr).get_amount_of t + x < U128_MOD ∧
      tb2 = tb.updBal addr t ((tb.balances addr).get_amount_of t + x) := by
  unfold TokenBalances.add_to_token_balance
  split <;> simp_all [eq_comm]

theorem deduct_ok_iff (tb : TokenBalances) (addr : Address) (t : Token) (x : Nat)
    (tb2 : TokenBalances) :
    tb.deduct_from_token_balance addr t x = Except.ok tb2 ↔
      x ≤ (tb.balances addr).get_amount_of t ∧
      tb2 = tb.updBal addr t ((tb.balances addr).get_amount_of t - x) := by
  unfold TokenBalances.deduct_from_token_balance
  split <;> simp_all [eq_comm]

theorem move_ok_iff (tb : TokenBalances) (src dst : Address) (t : Token) (x : Nat)
    (tb2 : TokenBalances) :
    tb.move_tokens src dst t x = Except.ok tb2 ↔
      ∃ tb1, tb.deduct_from_token_balance src t x = Except.ok tb1 ∧
             tb1.add_to_token_balance dst t x = Except.ok tb2 := by
  unfold TokenBalances.move_tokens
  cases h : tb.deduct_from_token_balance src t x <;> simp [h]

theorem add_ok_addr_fields {tb : TokenBalances} {addr : Address} {t : Token} {x : Nat}
    {tb2 : TokenBalances} (h : tb.add_to_token_balance addr t x = Except.ok tb2) :
    tb2.token_a_address = tb.token_a_address ∧ tb2.token_b_address = tb.token_b_address := by
  rcases (add_ok_iff tb addr t x tb2).mp h with ⟨-, rfl⟩
  exact ⟨rfl, rfl⟩

theorem deduct_ok_addr_fields {tb : TokenBalances} {addr : Address} {t : Token} {x : Nat}
    {tb2 : TokenBalances} (h : tb.deduct_from_token_balance addr t x = Except.ok tb2) :
    tb2.token_a_address = tb.token_a_address ∧ tb2.token_b_address = tb.token_b_address := by
  rcases (deduct_ok_iff tb addr t x tb2).mp h with ⟨-, rfl⟩
  exact ⟨rfl, rfl⟩

theorem move_ok_addr_fields {tb : TokenBalances} {src dst : Address} {t : Token} {x : Nat}
    {tb2 : TokenBalances} (h : tb.move_tokens src dst t x = Except.ok tb2) :
    tb2.token_a_address = tb.token_a_address ∧ tb2.token_b_address = tb.token_b_address := by
  rcases (move_ok_iff tb src dst t x tb2).mp h with ⟨tb1, h1, h2⟩
  rcases deduct_ok_addr_fields h1 with ⟨e1, e2⟩
  rcases add_ok_addr_fields h2 with ⟨e3, e4⟩
  exact ⟨e3.trans e1, e4.trans e2⟩

theorem move_ok_get {tb : TokenBalances} {src dst : Address} {t : Token} {x : Nat}
    {tb2 : TokenBalances} (h : tb.move_tokens src dst t x = Except.ok tb2)
    (hne : src ≠ dst) :
    x ≤ (tb.balances src).get_amount_of t ∧
    (tb2.balances src).get_amount_of t = (tb.balances src).get_amount_of t - x ∧
    (tb2.balances dst).get_amount_of t = (tb.balances dst).get_amount_of t + x ∧
    (∀ t2, t2 ≠ t → ∀ y, (tb2.balances y).get_amount_of t2 = (tb.balances y).get_amount_of t2) ∧
    (∀ y, y ≠ src → y ≠ dst → tb2.balances y = tb.balances y) := by
  rcases (move_ok_iff tb src dst t x tb2).mp h with ⟨tb1, h1, h2⟩
  rcases (deduct_ok_iff tb src t x tb1).mp h1 with ⟨hle, rfl⟩
  rcases (add_ok_iff _ dst t x tb2).mp h2 with ⟨-, rfl⟩
  refine ⟨hle, ?_, ?_, ?_, ?_⟩
  · simp [TokenBalances.updBal, hne, Ne.symm hne, get_set_same]
  · simp [TokenBalances.updBal, hne, Ne.symm hne, get_set_same]
  · intro t2 ht2 y
    by_cases hys : y = src
    · subst hys
      simp [TokenBalances.updBal, hne, get_set_other _ _ _ _ ht2]
    · by_cases hyd : y = dst
      · subst hyd
        simp [TokenBalances.updBal, hne, hys, get_set_other _ _ _ _ ht2]
      · simp [TokenBalances.updBal, hys, hyd]
  · intro y hys hyd
    simp [TokenBalances.updBal, hys, hyd]

theorem move_ok_same_addr {tb : TokenBalances} {u : Address} {t : Token} {x : Nat}
    {tb2 : TokenBalances} (h : tb.move_tokens u u t x = Except.ok tb2) :
    ∀ y, tb2.balances y = tb.balances y := by
  rcases (move_ok_iff tb u u t x tb2).mp h with ⟨tb1, h1, h2⟩
  rcases (deduct_ok_iff tb u t x tb1).mp h1 with ⟨hle, rfl⟩
  rcases (add_ok_iff _ u t x tb2).mp h2 with ⟨-, rfl⟩
  intro y
  by_cases hy : y = u
  · subst hy
    have hset : ∀ r : BalanceRec, ∀ v w : Nat,
        (r.set_amount t v).set_amount t w = r.set_amount t w := by
      intro r v w; cases t <;> rfl
    simp [TokenBalances.updBal, get_set_same, hset, Nat.sub_add_cancel hle, set_get_self]
  · simp [TokenBalances.updBal, hy]

end AMM

namespace Zk

theorem zk_get_set_same (b : Balance) (t : ZToken) (v : Nat) :
    (b.set_token t v).for_token t = v := by
  cases t <;> rfl

theorem zk_get_set_other (b : Balance) (t t2 : ZToken) (v : Nat) (h : t2 ≠ t) :
    (b.set_token t v).for_token t2 = b.for_token t2 := by
  cases t <;> cases t2 <;> simp_all [Balance.set_token, Balance.for_token]

end Zk

namespace AMM

/-- Claim C2: for all reserve_in > 0, reserve_out, amount_in and a fee in the
per-mille range whose intermediate products stay inside the unsigned 128-bit
range, the swap pricing function returns exactly the floored fee-adjusted
constant-product formula; in particular it returns 90 for reserves
(1000, 1000), fee 3 and amount_in 100, and returns 0 for a 100 percent fee
with any positive amount_in. -/
theorem claim_C2_swap_pricing :
    (∀ pin pout x f : Nat, 0 < pin → f ≤ 1000 →
      (1000 - f) * x * pout < U128_MOD →
      1000 * pin + (1000 - f) * x < U128_MOD →
      calculate_swap_to_amount pin pout x f =
        Except.ok ((1000 - f) * x * pout / (1000 * pin + (1000 - f) * x))) ∧
    calculate_swap_to_amount 1000 1000 100 3 = Except.ok 90 ∧
    (∀ pin pout x : Nat, 0 < pin → 1000 * pin < U128_MOD → 0 < x →
      calculate_swap_to_amount pin pout x 1000 = Except.ok 0) := by
  refine ⟨?_, by rfl, ?_⟩
  · intro pin pout x f hpin hf hnum hden
    have h1 : ¬ (1000 < f) := Nat.not_lt.mpr hf
    have hrx : (1000 - f) * x < U128_MOD := lt_of_le_of_lt (Nat.le_add_left _ _) hden
    have hpin2 : 1000 * pin < U128_MOD := lt_of_le_of_lt (Nat.le_add_right _ _) hden
    have hdnz : 1000 * pin + (1000 - f) * x ≠ 0 := by
      have : 0 < 1000 * pin := Nat.mul_pos (by norm_num) hpin
      omega
    simp [calculate_swap_to_amount, h1, hrx, hnum, hpin2, hden, hdnz]
  · intro pin pout x hpin hpin2 hx
    have hdnz : 1000 * pin ≠ 0 := by
      have : 0 < 1000 * pin := Nat.mul_pos (by norm_num) hpin
      omega
    have hU : 0 < U128_MOD := by norm_num [U128_MOD]
    simp [calculate_swap_to_amount, hpin2, hdnz, hU]

/-- Witness for claim C2 at concrete inputs. -/
theorem claim_C2_swap_pricing_witness :
    calculate_swap_to_amount 2000 500 40 100 =
      Except.ok (900 * 40 * 500 / (1000 * 2000 + 900 * 40)) ∧
    calculate_swap_to_amount 7 9 5 1000 = Except.ok 0 :=
  ⟨claim_C2_swap_pricing.1 2000 500 40 100 (by decide) (by decide) (by decide) (by decide),
   claim_C2_swap_pricing.2.2 7 9 5 (by decide) (by decide) (by decide)⟩

/-- Claim C6: for every amount_in, reserve_in > 0, reserve_out and
total_shares whose intermediate products stay inside the unsigned 128-bit
range, the provision pricing returns the floored equivalent with the plus-one
bias for a positive amount_in (zero otherwise) and the floored minted share
count, exactly. -/
theorem claim_C6_equivalent_and_minted :
    ∀ x pin pout L : Nat, 0 < pin →
      x * pout < U128_MOD → x * pout / pin + 1 < U128_MOD → x * L < U128_MOD →
      calculate_equivalent_and_minted_tokens x pin pout L =
        Except.ok (if 0 < x then x * pout / pin + 1 else 0, x * L / pin) := by
  intro x pin pout L hpin hxp hxp1 hxL
  have hpz : ¬ (pin = 0) := by omega
  by_cases hx : 0 < x
  · simp [calculate_equivalent_and_minted_tokens, hx, hxp, hxp1, hxL, hpz]
  · simp [calculate_equivalent_and_minted_tokens, hx, hxL, hpz]

/-- Witness for claim C6 at a concrete input. -/
theorem claim_C6_equivalent_and_minted_witness :
    calculate_equivalent_and_minted_tokens 10 100 200 50 = Except.ok (21, 5) := by
  have h := claim_C6_equivalent_and_minted 10 100 200 50 (by decide) (by decide)
    (by decide) (by decide)
  norm_num at h
  exact h

/-- Claim C4: additions and multiplications on 128-bit amounts abort the
operation on overflow instead of wrapping: the deposit additions (both the
spec-modelled ledger of the liquidity-swap contract and the zk pairwise
balance map) fail when the sum reaches 2 ^ 128 and otherwise record the
exact mathematical sum, and the multiplications inside the swap pricing
formula fail when a product reaches 2 ^ 128. -/
theorem claim_C4_overflow_aborts :
    (∀ tb : TokenBalances, ∀ addr : Address, ∀ t : Token, ∀ x : Nat,
      U128_MOD ≤ (tb.balances addr).get_amount_of t + x →
      tb.add_to_token_balance addr t x = Except.error LsError.overflow) ∧
    (∀ tb : TokenBalances, ∀ addr : Address, ∀ t : Token, ∀ x : Nat,
      ∀ tb2 : TokenBalances, tb.add_to_token_balance addr t x = Except.ok tb2 →
      (tb2.balances addr).get_amount_of t = (tb.balances addr).get_amount_of t + x) ∧
    (∀ ztb : Zk.PairwiseTokenBalances, ∀ user : Nat, ∀ t : Zk.ZToken, ∀ x : Nat,
      U128_MOD ≤ (ztb.get_balance user).for_token t + x →
      ztb.deposit_to_user_balance user t x =
        Except.error (Zk.ZErr.fatal Zk.ZkMsg.balanceOverflow)) ∧
    (∀ ztb : Zk.PairwiseTokenBalances, ∀ user : Nat, ∀ t : Zk.ZToken, ∀ x : Nat,
      ∀ ztb2 : Zk.PairwiseTokenBalances,
      ztb.deposit_to_user_balance user t x = Except.ok ztb2 →
      (ztb2.get_balance user).for_token t = (ztb.get_balance user).for_token t + x) ∧
    (∀ pin pout x f : Nat, f ≤ 1000 → U128_MOD ≤ (1000 - f) * x →
      calculate_swap_to_amount pin pout x f = Except.error LsError.overflow) ∧
    (∀ pin pout x f : Nat, f ≤ 1000 → (1000 - f) * x < U128_MOD →
      U128_MOD ≤ (1000 - f) * x * pout →
      calculate_swap_to_amount pin pout x f = Except.error LsError.overflow) := by
  refine ⟨?_, ?_, ?_, ?_, ?_, ?_⟩
  · intro tb addr t x h
    simp [TokenBalances.add_to_token_balance, Nat.not_lt.mpr h]
  · intro tb addr t x tb2 h
    rcases (add_ok_iff tb addr t x tb2).mp h with ⟨-, rfl⟩
    simp [TokenBalances.updBal, get_set_same]
  · intro ztb user t x h
    simp [Zk.PairwiseTokenBalances.deposit_to_user_balance, Nat.not_lt.mpr h]
  · intro ztb user t x ztb2 h
    unfold Zk.PairwiseTokenBalances.deposit_to_user_balance at h
    split at h
    · cases h
      simp [Zk.PairwiseTokenBalances.get_balance, Zk.zk_get_set_same]
    · cases h
  · intro pin pout x f hf hrx
    simp [calculate_swap_to_amount, Nat.not_lt.mpr hf, Nat.not_lt.mpr hrx]
  · intro pin pout x f hf hrx hnum
    simp [calculate_swap_to_amount, Nat.not_lt.mpr hf, hrx, Nat.not_lt.mpr hnum]

/-- Witness for claim C4 at concrete inputs. -/
theorem claim_C4_overflow_aborts_witness :
    (TokenBalances.init 1 2).add_to_token_balance 5 Token.A (2 ^ 128) =
      Except.error LsError.overflow ∧
    calculate_swap_to_amount 10 10 (2 ^ 128) 0 = Except.error LsError.overflow :=
  ⟨claim_C4_overflow_aborts.1 (TokenBalances.init 1 2) 5 Token.A (2 ^ 128) (by decide),
   claim_C4_overflow_aborts.2.2.2.2.1 10 10 (2 ^ 128) 0 (by decide)
     (by norm_num [U128_MOD])⟩

end AMM

namespace AMM

theorem swap_ok_elim {st : LiquiditySwapContractState} {user tin : Address}
    {x minOut : Nat} {st2 : LiquiditySwapContractState}
    (h : swap st user tin x minOut = Except.ok st2) :
    ∃ tokens amount_out tb1 tb2,
      contract_pools_have_liquidity st = true ∧
      st.token_balances.deduce_tokens_in_out tin = Except.ok tokens ∧
      calculate_swap_to_amount
        ((st.token_balances.get_balance_for st.liquidity_pool_address).get_amount_of tokens.fst)
        ((st.token_balances.get_balance_for st.liquidity_pool_address).get_amount_of tokens.snd)
        x st.swap_fee_per_mille = Except.ok amount_out ∧
      minOut ≤ amount_out ∧
      st.token_balances.move_tokens user st.liquidity_pool_address tokens.fst x =
        Except.ok tb1 ∧
      tb1.move_tokens st.liquidity_pool_address user tokens.snd amount_out = Except.ok tb2 ∧
      st2 = { st with token_balances := tb2 } := by
  unfold swap at h
  split at h
  · exact Except.noConfusion h
  · rename_i hliq
    have hliq2 : contract_pools_have_liquidity st = true := by
      revert hliq
      cases contract_pools_have_liquidity st <;> simp
    cases hded : st.token_balances.deduce_tokens_in_out tin with
    | error e =>
      simp only [hded] at h
      exact Except.noConfusion h
    | ok tokens =>
      simp only [hded] at h
      cases hcalc : calculate_swap_to_amount
          ((st.token_balances.get_balance_for st.liquidity_pool_address).get_amount_of tokens.fst)
          ((st.token_balances.get_balance_for st.liquidity_pool_address).get_amount_of tokens.snd)
          x st.swap_fee_per_mille with
      | error e =>
        simp only [hcalc] at h
        exact Except.noConfusion h
      | ok amount_out =>
        simp only [hcalc] at h
        split at h
        · exact Except.noConfusion h
        · rename_i hslip
          cases hmv1 : st.token_balances.move_tokens user st.liquidity_pool_address
              tokens.fst x with
          | error e =>
            simp only [hmv1] at h
            exact Except.noConfusion h
          | ok tb1 =>
            simp only [hmv1] at h
            cases hmv2 : tb1.move_tokens st.liquidity_pool_address user tokens.snd
                amount_out with
            | error e =>
              simp only [hmv2] at h
              exact Except.noConfusion h
            | ok tb2 =>
              simp only [hmv2] at h
              cases h
              exact ⟨tokens, amount_out, tb1, tb2, hliq2, rfl, hcalc,
                Nat.not_lt.mp hslip, hmv1, hmv2, rfl⟩

theorem calculate_swap_ok_elim {pin pout x f v : Nat}
    (h : calculate_swap_to_amount pin pout x f = Except.ok v) :
    f ≤ 1000 ∧ v = (1000 - f) * x * pout / (1000 * pin + (1000 - f) * x) := by
  unfold calculate_swap_to_amount at h
  split at h
  · exact Except.noConfusion h
  · rename_i hf
    repeat' split at h
    all_goals first
      | exact Except.noConfusion h
      | (cases h; exact ⟨Nat.not_lt.mp hf, rfl⟩)

theorem swap_product_core (a b x f : Nat) (ha : 0 < a) (hb : 0 < b) (hf : f ≤ 1000) :
    (1000 - f) * x * b / (1000 * a + (1000 - f) * x) < b ∧
    a * b ≤ (a + x) * (b - (1000 - f) * x * b / (1000 * a + (1000 - f) * x)) ∧
    (0 < f → 0 < x →
      a * b < (a + x) * (b - (1000 - f) * x * b / (1000 * a + (1000 - f) * x))) := by
  set r := 1000 - f with hr
  set D := 1000 * a + r * x with hD0
  set out := r * x * b / D with hout
  have hD : 0 < D := by
    have h1 : 0 < 1000 * a := by positivity
    omega
  have hout_mul : out * D ≤ r * x * b := Nat.div_mul_le_self _ _
  have hnum_lt : r * x * b < b * D := by
    rw [hD0]
    have h1 : 0 < 1000 * a * b := by positivity
    nlinarith
  have houtb : out < b := by
    rw [hout, Nat.div_lt_iff_lt_mul hD]
    exact hnum_lt
  have hbD : b * D = 1000 * a * b + r * x * b := by rw [hD0]; ring
  have hsub1 : b * D - r * x * b = 1000 * a * b := by rw [hbD]; simp
  have hsub : 1000 * a * b ≤ b * D - out * D := hsub1 ▸ Nat.sub_le_sub_left hout_mul (b * D)
  have h2 : (b - out) * D = b * D - out * D := Nat.sub_mul _ _ _
  have h5 : 1000 * a * b ≤ (b - out) * D := by rw [h2]; exact hsub
  have h3 : (a + x) * (1000 * a * b) ≤ (a + x) * ((b - out) * D) :=
    Nat.mul_le_mul (Nat.le_refl (a + x)) h5
  have hrle : r ≤ 1000 := by omega
  have hkey : r * (a * b * x) ≤ 1000 * (a * b * x) :=
    Nat.mul_le_mul_right (a * b * x) hrle
  have h4 : a * b * D ≤ (a + x) * (1000 * a * b) := by
    rw [hD0]
    nlinarith
  have hmain : a * b * D ≤ (a + x) * (b - out) * D := by
    calc a * b * D ≤ (a + x) * (1000 * a * b) := h4
      _ ≤ (a + x) * ((b - out) * D) := h3
      _ = (a + x) * (b - out) * D := by ring
  refine ⟨houtb, Nat.le_of_mul_le_mul_right hmain hD, ?_⟩
  intro hfpos hx
  have hrlt : r < 1000 := by omega
  have habx : 0 < a * b * x := by positivity
  have hkey2 : r * (a * b * x) < 1000 * (a * b * x) :=
    (Nat.mul_lt_mul_right habx).mpr hrlt
  have h4s : a * b * D < (a + x) * (1000 * a * b) := by
    rw [hD0]
    nlinarith
  have hmains : a * b * D < (a + x) * (b - out) * D := by
    calc a * b * D < (a + x) * (1000 * a * b) := h4s
      _ ≤ (a + x) * ((b - out) * D) := h3
      _ = (a + x) * (b - out) * D := by ring
  exact lt_of_mul_lt_mul_right hmains (Nat.zero_le D)

theorem get_amount_A (r : BalanceRec) : r.get_amount_of Token.A = r.a_tokens := rfl

theorem get_amount_B (r : BalanceRec) : r.get_amount_of Token.B = r.b_tokens := rfl

theorem get_amount_L (r : BalanceRec) : r.get_amount_of Token.LIQUIDITY = r.liquidity_tokens :=
  rfl

theorem pools_liquid_elim {st : LiquiditySwapContractState}
    (h : contract_pools_have_liquidity st = true) :
    0 < (st.token_balances.balances st.liquidity_pool_address).a_tokens ∧
    0 < (st.token_balances.balances st.liquidity_pool_address).b_tokens := by
  unfold contract_pools_have_liquidity at h
  simp [TokenBalances.get_balance_for] at h
  omega

theorem deduce_elim {tb : TokenBalances} {addr : Address} {tokens : Token × Token}
    (h : tb.deduce_tokens_in_out addr = Except.ok tokens) :
    tokens = (Token.A, Token.B) ∨ tokens = (Token.B, Token.A) := by
  unfold TokenBalances.deduce_tokens_in_out at h
  split at h
  · cases h
    exact Or.inl rfl
  · split at h
    · cases h
      exact Or.inr rfl
    · exact Except.noConfusion h

theorem swap_step_product {st st2 : LiquiditySwapContractState}
    {user tin : Address} {x minOut : Nat}
    (hne : user ≠ st.liquidity_pool_address)
    (h : swap st user tin x minOut = Except.ok st2) :
    poolProduct st ≤ poolProduct st2 ∧
    st2.liquidity_pool_address = st.liquidity_pool_address ∧
    st2.swap_fee_per_mille = st.swap_fee_per_mille ∧
    contract_pools_have_liquidity st2 = true ∧
    (0 < st.swap_fee_per_mille → 0 < x → poolProduct st < poolProduct st2) := by
  rcases swap_ok_elim h with ⟨tokens, out, tb1, tb2, hliq, hded, hcalc, hmin, hmv1, hmv2, rfl⟩
  rcases pools_liquid_elim hliq with ⟨ha, hb⟩
  rcases deduce_elim hded with htok | htok <;> subst htok <;>
    simp only [TokenBalances.get_balance_for, get_amount_A, get_amount_B] at hcalc <;>
    dsimp only at hmv1 hmv2 <;>
    obtain ⟨hfle, hout_eq⟩ := calculate_swap_ok_elim hcalc
  · rcases move_ok_get hmv1 hne with ⟨hx1, hsrc1, hdst1, hoth1, -⟩
    rcases move_ok_get hmv2 (Ne.symm hne) with ⟨hx2, hsrc2, hdst2, hoth2, -⟩
    have eA : (tb2.balances st.liquidity_pool_address).a_tokens
        = (st.token_balances.balances st.liquidity_pool_address).a_tokens + x := by
      have h1 := hoth2 Token.A (by decide) st.liquidity_pool_address
      rw [get_amount_A] at h1
      rw [h1]
      have h2 := hdst1
      rw [get_amount_A] at h2
      exact h2
    have eB1 : (tb1.balances st.liquidity_pool_address).b_tokens
        = (st.token_balances.balances st.liquidity_pool_address).b_tokens := by
      have h1 := hoth1 Token.B (by decide) st.liquidity_pool_address
      rw [get_amount_B] at h1
      exact h1
    have eB : (tb2.balances st.liquidity_pool_address).b_tokens
        = (st.token_balances.balances st.liquidity_pool_address).b_tokens - out := by
      have h1 := hsrc2
      rw [get_amount_B, get_amount_B] at h1
      rw [h1, eB1]
    rcases swap_product_core (st.token_balances.balances st.liquidity_pool_address).a_tokens
        (st.token_balances.balances st.liquidity_pool_address).b_tokens x
        st.swap_fee_per_mille ha hb hfle with ⟨hlt, hle, hstrict⟩
    rw [← hout_eq] at hlt hle hstrict
    have hprod2 : poolProduct { st with token_balances := tb2 } =
        ((st.token_balances.balances st.liquidity_pool_address).a_tokens + x) *
        ((st.token_balances.balances st.liquidity_pool_address).b_tokens - out) := by
      unfold poolProduct TokenBalances.get_balance_for
      dsimp only
      rw [eA, eB]
    have hprod1 : poolProduct st =
        (st.token_balances.balances st.liquidity_pool_address).a_tokens *
        (st.token_balances.balances st.liquidity_pool_address).b_tokens := rfl
    refine ⟨?_, rfl, rfl, ?_, ?_⟩
    · rw [hprod1, hprod2]
      exact hle
    · unfold contract_pools_have_liquidity TokenBalances.get_balance_for
      dsimp only
      rw [eA, eB]
      simp only [Bool.and_eq_true, bne_iff_ne]
      omega
    · intro hf hx
      rw [hprod1, hprod2]
      exact hstrict hf hx
  · rcases move_ok_get hmv1 hne with ⟨hx1, hsrc1, hdst1, hoth1, -⟩
    rcases move_ok_get hmv2 (Ne.symm hne) with ⟨hx2, hsrc2, hdst2, hoth2, -⟩
    have eB : (tb2.balances st.liquidity_pool_address).b_tokens
        = (st.token_balances.balances st.liquidity_pool_address).b_tokens + x := by
      have h1 := hoth2 Token.B (by decide) st.liquidity_pool_address
      rw [get_amount_B] at h1
      rw [h1]
      have h2 := hdst1
      rw [get_amount_B] at h2
      exact h2
    have eA1 : (tb1.balances st.liquidity_pool_address).a_tokens
        = (st.token_balances.balances st.liquidity_pool_address).a_tokens := by
      have h1 := hoth1 Token.A (by decide) st.liquidity_pool_address
      rw [get_amount_A] at h1
      exact h1
    have eA : (tb2.balances st.liquidity_pool_address).a_tokens
        = (st.token_balances.balances st.liquidity_pool_address).a_tokens - out := by
      have h1 := hsrc2
      rw [get_amount_A, get_amount_A] at h1
      rw [h1, eA1]
    rcases swap_product_core (st.token_balances.balances st.liquidity_pool_address).b_tokens
        (st.token_balances.balances st.liquidity_pool_address).a_tokens x
        st.swap_fee_per_mille hb ha hfle with ⟨hlt, hle, hstrict⟩
    rw [← hout_eq] at hlt hle hstrict
    have hprod2 : poolProduct { st with token_balances := tb2 } =
        ((st.token_balances.balances st.liquidity_pool_address).a_tokens - out) *
        ((st.token_balances.balances st.liquidity_pool_address).b_tokens + x) := by
      unfold poolProduct TokenBalances.get_balance_for
      dsimp only
      rw [eA, eB]
    have hprod1 : poolProduct st =
        (st.token_balances.balances st.liquidity_pool_address).a_tokens *
        (st.token_balances.balances st.liquidity_pool_address).b_tokens := rfl
    refine ⟨?_, rfl, rfl, ?_, ?_⟩
    · rw [hprod1, hprod2]
      rw [Nat.mul_comm] at hle
      rw [Nat.mul_comm
        ((st.token_balances.balances st.liquidity_pool_address).a_tokens - out)]
      exact hle
    · unfold contract_pools_have_liquidity TokenBalances.get_balance_for
      dsimp only
      rw [eA, eB]
      simp only [Bool.and_eq_true, bne_iff_ne]
      omega
    · intro hf hx
      rw [hprod1, hprod2]
      rw [Nat.mul_comm] at hstrict
      rw [Nat.mul_comm
        ((st.token_balances.balances st.liquidity_pool_address).a_tokens - out)]
      exact hstrict hf hx

/-- Claim C1: on an Active pool (both reserves non-zero), any sequence of
successful swap operations by users other than the pool address keeps the
reserve product non-decreasing, and each individual successful swap with a
positive fee and a positive input amount strictly increases the product. -/
theorem claim_C1_constant_product :
    (∀ st : LiquiditySwapContractState, ∀ ops : List SwapOp,
      ∀ st2 : LiquiditySwapContractState,
      contract_pools_have_liquidity st = true →
      (∀ op ∈ ops, op.user ≠ st.liquidity_pool_address) →
      applySwaps st ops = Except.ok st2 →
      poolProduct st ≤ poolProduct st2) ∧
    (∀ st st2 : LiquiditySwapContractState, ∀ user tin : Address, ∀ x minOut : Nat,
      user ≠ st.liquidity_pool_address → 0 < st.swap_fee_per_mille → 0 < x →
      swap st user tin x minOut = Except.ok st2 →
      poolProduct st < poolProduct st2) := by
  constructor
  · intro st ops
    induction ops generalizing st with
    | nil =>
      intro st2 _ _ h
      unfold applySwaps at h
      cases h
      exact Nat.le_refl _
    | cons op ops ih =>
      intro st2 hliq hops h
      unfold applySwaps at h
      cases hsw : swap st op.user op.token_in op.amount_in op.amount_out_minimum with
      | error e =>
        simp only [hsw] at h
        exact Except.noConfusion h
      | ok st1 =>
        simp only [hsw] at h
        have hu : op.user ≠ st.liquidity_pool_address := hops op (List.mem_cons_self op ops)
        rcases swap_step_product hu hsw with ⟨hle, haddr, hfee, hliq1, -⟩
        have hops1 : ∀ op2 ∈ ops, op2.user ≠ st1.liquidity_pool_address := by
          intro op2 hmem
          rw [haddr]
          exact hops op2 (List.mem_cons_of_mem op hmem)
        exact le_trans hle (ih st1 st2 hliq1 hops1 h)
  · intro st st2 user tin x minOut hne hf hx h
    exact (swap_step_product hne h).2.2.2.2 hf hx

/-- Witness for claim C1: two opposite swaps on the concrete pool keep the
product non-decreasing, and the first swap strictly increases it. -/
theorem claim_C1_constant_product_witness :
    poolProduct c1_state ≤ poolProduct c1_state2 ∧
    poolProduct c1_state < poolProduct c1_state3 :=
  ⟨claim_C1_constant_product.1 c1_state c1_ops c1_state2 (by decide) (by decide) (by rfl),
   claim_C1_constant_product.2 c1_state c1_state3 5 1 10 0 (by decide) (by decide)
     (by decide) (by rfl)⟩

theorem updBal_balances_eq (tb : TokenBalances) (addr : Address) (t : Token) (v : Nat) :
    (tb.updBal addr t v).balances = updFn tb.balances addr ((tb.balances addr).set_amount t v) :=
  rfl

theorem updFn_same (bs : Address → BalanceRec) (addr : Address) (rec2 : BalanceRec) :
    updFn bs addr rec2 addr = rec2 := if_pos rfl

theorem updFn_other (bs : Address → BalanceRec) (addr : Address) (rec2 : BalanceRec)
    (y : Address) (h : y ≠ addr) : updFn bs addr rec2 y = bs y := if_neg h

theorem sumBal_cons (bs : Address → BalanceRec) (t : Token) (a : Address) (L : List Address) :
    sumBal bs t (a :: L) = (bs a).get_amount_of t + sumBal bs t L := by
  simp [sumBal]

theorem sumBal_congr {f g : Address → BalanceRec} {t : Token} {L : List Address}
    (h : ∀ y ∈ L, f y = g y) : sumBal f t L = sumBal g t L := by
  induction L with
  | nil => rfl
  | cons a L ih =>
    rw [sumBal_cons, sumBal_cons, h a (List.mem_cons_self a L),
      ih (fun y hy => h y (List.mem_cons_of_mem a hy))]

theorem sumBal_update (bs : Address → BalanceRec) (addr : Address) (rec2 : BalanceRec)
    (t : Token) (L : List Address) (hnd : L.Nodup) (hmem : addr ∈ L) :
    sumBal (updFn bs addr rec2) t L + (bs addr).get_amount_of t
      = sumBal bs t L + rec2.get_amount_of t := by
  induction L with
  | nil => cases hmem
  | cons a L ih =>
    rcases List.mem_cons.mp hmem with rfl | hmem2
    · have hnotin : addr ∉ L := (List.nodup_cons.mp hnd).1
      rw [sumBal_cons, sumBal_cons]
      have hcong : sumBal (updFn bs addr rec2) t L = sumBal bs t L :=
        sumBal_congr (fun y hy => updFn_other bs addr rec2 y
          (fun hEq => hnotin (hEq ▸ hy)))
      rw [hcong, updFn_same]
      omega
    · by_cases hEq : a = addr
      · subst hEq
        have hnotin : a ∉ L := (List.nodup_cons.mp hnd).1
        exact absurd hmem2 hnotin
      · rw [sumBal_cons, sumBal_cons, updFn_other bs addr rec2 a hEq]
        have := ih (List.nodup_cons.mp hnd).2 hmem2
        omega

theorem add_ok_sum {tb : TokenBalances} {addr : Address} {t : Token} {x : Nat}
    {tb2 : TokenBalances} (h : tb.add_to_token_balance addr t x = Except.ok tb2)
    {L : List Address} (hnd : L.Nodup) (hmem : addr ∈ L) :
    sumBal tb2.balances t L = sumBal tb.balances t L + x ∧
    (∀ t2, t2 ≠ t → sumBal tb2.balances t2 L = sumBal tb.balances t2 L) := by
  rcases (add_ok_iff tb addr t x tb2).mp h with ⟨hlt, rfl⟩
  constructor
  · have hu := sumBal_update tb.balances addr
      ((tb.balances addr).set_amount t ((tb.balances addr).get_amount_of t + x)) t L hnd hmem
    rw [get_set_same] at hu
    rw [updBal_balances_eq]
    omega
  · intro t2 ht2
    have hu := sumBal_update tb.balances addr
      ((tb.balances addr).set_amount t ((tb.balances addr).get_amount_of t + x)) t2 L hnd hmem
    rw [get_set_other _ _ _ _ ht2] at hu
    rw [updBal_balances_eq]
    omega

theorem deduct_ok_sum {tb : TokenBalances} {addr : Address} {t : Token} {x : Nat}
    {tb2 : TokenBalances} (h : tb.deduct_from_token_balance addr t x = Except.ok tb2)
    {L : List Address} (hnd : L.Nodup) (hmem : addr ∈ L) :
    sumBal tb2.balances t L + x = sumBal tb.balances t L ∧
    (∀ t2, t2 ≠ t → sumBal tb2.balances t2 L = sumBal tb.balances t2 L) := by
  rcases (deduct_ok_iff tb addr t x tb2).mp h with ⟨hle, rfl⟩
  constructor
  · have hu := sumBal_update tb.balances addr
      ((tb.balances addr).set_amount t ((tb.balances addr).get_amount_of t - x)) t L hnd hmem
    rw [get_set_same] at hu
    rw [updBal_balances_eq]
    omega
  · intro t2 ht2
    have hu := sumBal_update tb.balances addr
      ((tb.balances addr).set_amount t ((tb.balances addr).get_amount_of t - x)) t2 L hnd hmem
    rw [get_set_other _ _ _ _ ht2] at hu
    rw [updBal_balances_eq]
    omega

theorem move_ok_sum {tb : TokenBalances} {src dst : Address} {t : Token} {x : Nat}
    {tb2 : TokenBalances} (h : tb.move_tokens src dst t x = Except.ok tb2)
    {L : List Address} (hnd : L.Nodup) (hsrc : src ∈ L) (hdst : dst ∈ L) :
    ∀ t2, sumBal tb2.balances t2 L = sumBal tb.balances t2 L := by
  rcases (move_ok_iff tb src dst t x tb2).mp h with ⟨tb1, h1, h2⟩
  intro t2
  by_cases ht : t2 = t
  · subst ht
    have hd := (deduct_ok_sum h1 hnd hsrc).1
    have ha := (add_ok_sum h2 hnd hdst).1
    omega
  · rw [(add_ok_sum h2 hnd hdst).2 t2 ht, (deduct_ok_sum h1 hnd hsrc).2 t2 ht]

theorem provide_internal_ok_elim {st : LiquiditySwapContractState} {user : Address}
    {tokens : Token × Token} {xin xout s : Nat} {st2 : LiquiditySwapContractState}
    (h : provide_liquidity_internal st user tokens xin xout s = Except.ok st2) :
    ∃ tb1 tb2 tb3 tb4,
      st.token_balances.move_tokens user st.liquidity_pool_address tokens.fst xin =
        Except.ok tb1 ∧
      tb1.move_tokens user st.liquidity_pool_address tokens.snd xout = Except.ok tb2 ∧
      tb2.add_to_token_balance user Token.LIQUIDITY s = Except.ok tb3 ∧
      tb3.add_to_token_balance st.liquidity_pool_address Token.LIQUIDITY s = Except.ok tb4 ∧
      st2 = { st with token_balances := tb4 } := by
  unfold provide_liquidity_internal at h
  cases h1 : st.token_balances.move_tokens user st.liquidity_pool_address tokens.fst xin with
  | error e =>
    simp only [h1] at h
    exact Except.noConfusion h
  | ok tb1 =>
    simp only [h1] at h
    cases h2 : tb1.move_tokens user st.liquidity_pool_address tokens.snd xout with
    | error e =>
      simp only [h2] at h
      exact Except.noConfusion h
    | ok tb2 =>
      simp only [h2] at h
      cases h3 : tb2.add_to_token_balance user Token.LIQUIDITY s with
      | error e =>
        simp only [h3] at h
        exact Except.noConfusion h
      | ok tb3 =>
        simp only [h3] at h
        cases h4 : tb3.add_to_token_balance st.liquidity_pool_address Token.LIQUIDITY s with
        | error e =>
          simp only [h4] at h
          exact Except.noConfusion h
        | ok tb4 =>
          simp only [h4] at h
          cases h
          exact ⟨tb1, tb2, tb3, tb4, rfl, h2, h3, h4, rfl⟩

theorem provide_liquidity_ok_elim {st : LiquiditySwapContractState} {user taddr : Address}
    {x : Nat} {st2 : LiquiditySwapContractState}
    (h : provide_liquidity st user taddr x = Except.ok st2) :
    ∃ tokens eqmint,
      st.token_balances.deduce_tokens_in_out taddr = Except.ok tokens ∧
      calculate_equivalent_and_minted_tokens x
        ((st.token_balances.get_balance_for st.liquidity_pool_address).get_amount_of tokens.fst)
        ((st.token_balances.get_balance_for st.liquidity_pool_address).get_amount_of tokens.snd)
        (st.token_balances.get_balance_for st.liquidity_pool_address).liquidity_tokens =
        Except.ok eqmint ∧
      eqmint.snd ≠ 0 ∧
      provide_liquidity_internal st user tokens x eqmint.fst eqmint.snd = Except.ok st2 := by
  unfold provide_liquidity at h
  cases hded : st.token_balances.deduce_tokens_in_out taddr with
  | error e =>
    simp only [hded] at h
    exact Except.noConfusion h
  | ok tokens =>
    simp only [hded] at h
    cases hcalc : calculate_equivalent_and_minted_tokens x
        ((st.token_balances.get_balance_for st.liquidity_pool_address).get_amount_of tokens.fst)
        ((st.token_balances.get_balance_for st.liquidity_pool_address).get_amount_of tokens.snd)
        (st.token_balances.get_balance_for st.liquidity_pool_address).liquidity_tokens with
    | error e =>
      simp only [hcalc] at h
      exact Except.noConfusion h
    | ok eqmint =>
      simp only [hcalc] at h
      split at h
      · exact Except.noConfusion h
      · rename_i hs
        exact ⟨tokens, eqmint, rfl, hcalc, hs, h⟩

theorem provide_initial_ok_elim {st : LiquiditySwapContractState} {user : Address}
    {xa xb : Nat} {st2 : LiquiditySwapContractState}
    (h : provide_initial_liquidity st user xa xb = Except.ok st2) :
    ∃ minted,
      contract_pools_have_liquidity st = false ∧
      initial_liquidity_tokens xa xb = Except.ok minted ∧
      minted ≠ 0 ∧
      provide_liquidity_internal st user (Token.A, Token.B) xa xb minted = Except.ok st2 := by
  unfold provide_initial_liquidity at h
  split at h
  · exact Except.noConfusion h
  · rename_i hliq
    have hliq2 : contract_pools_have_liquidity st = false := by
      revert hliq
      cases contract_pools_have_liquidity st <;> simp
    cases hinit : initial_liquidity_tokens xa xb with
    | error e =>
      simp only [hinit] at h
      exact Except.noConfusion h
    | ok minted =>
      simp only [hinit] at h
      split at h
      · exact Except.noConfusion h
      · rename_i hm
        exact ⟨minted, hliq2, rfl, hm, h⟩

theorem reclaim_ok_elim {st : LiquiditySwapContractState} {user : Address}
    {amt : Nat} {st2 : LiquiditySwapContractState}
    (h : reclaim_liquidity st user amt = Except.ok st2) :
    ∃ tb0 outputs tb1 tb2 tb3,
      st.token_balances.deduct_from_token_balance user Token.LIQUIDITY amt = Except.ok tb0 ∧
      calculate_reclaim_output amt
        (tb0.get_balance_for st.liquidity_pool_address).a_tokens
        (tb0.get_balance_for st.liquidity_pool_address).b_tokens
        (tb0.get_balance_for st.liquidity_pool_address).liquidity_tokens =
        Except.ok outputs ∧
      tb0.move_tokens st.liquidity_pool_address user Token.A outputs.fst = Except.ok tb1 ∧
      tb1.move_tokens st.liquidity_pool_address user Token.B outputs.snd = Except.ok tb2 ∧
      tb2.deduct_from_token_balance st.liquidity_pool_address Token.LIQUIDITY amt =
        Except.ok tb3 ∧
      st2 = { st with token_balances := tb3 } := by
  unfold reclaim_liquidity at h
  cases h0 : st.token_balances.deduct_from_token_balance user Token.LIQUIDITY amt with
  | error e =>
    simp only [h0] at h
    exact Except.noConfusion h
  | ok tb0 =>
    simp only [h0] at h
    cases hcalc : calculate_reclaim_output amt
        (tb0.get_balance_for st.liquidity_pool_address).a_tokens
        (tb0.get_balance_for st.liquidity_pool_address).b_tokens
        (tb0.get_balance_for st.liquidity_pool_address).liquidity_tokens with
    | error e =>
      simp only [hcalc] at h
      exact Except.noConfusion h
    | ok outputs =>
      simp only [hcalc] at h
      cases h1 : tb0.move_tokens st.liquidity_pool_address user Token.A outputs.fst with
      | error e =>
        simp only [h1] at h
        exact Except.noConfusion h
      | ok tb1 =>
        simp only [h1] at h
        cases h2 : tb1.move_tokens st.liquidity_pool_address user Token.B outputs.snd with
        | error e =>
          simp only [h2] at h
          exact Except.noConfusion h
        | ok tb2 =>
          simp only [h2] at h
          cases h3 : tb2.deduct_from_token_balance st.liquidity_pool_address
              Token.LIQUIDITY amt with
          | error e =>
            simp only [h3] at h
            exact Except.noConfusion h
          | ok tb3 =>
            simp only [h3] at h
            cases h
            exact ⟨tb0, outputs, tb1, tb2, tb3, rfl, hcalc, h1, h2, h3, rfl⟩

theorem deposit_callback_ok_elim {st : LiquiditySwapContractState} {user : Address}
    {t : Token} {x : Nat} {st2 : LiquiditySwapContractState}
    (h : deposit_callback st user t x = Except.ok st2) :
    ∃ tb, st.token_balances.add_to_token_balance user t x = Except.ok tb ∧
      st2 = { st with token_balances := tb } := by
  unfold deposit_callback at h
  cases h1 : st.token_balances.add_to_token_balance user t x with
  | error e =>
    simp only [h1] at h
    exact Except.noConfusion h
  | ok tb =>
    simp only [h1] at h
    cases h
    exact ⟨tb, rfl, rfl⟩

theorem withdraw_ok_elim {st : LiquiditySwapContractState} {user taddr : Address}
    {x : Nat} {st2 : LiquiditySwapContractState}
    (h : withdraw st user taddr x = Except.ok st2) :
    ∃ tokens tb,
      st.token_balances.deduce_tokens_in_out taddr = Except.ok tokens ∧
      st.token_balances.deduct_from_token_balance user tokens.fst x = Except.ok tb ∧
      st2 = { st with token_balances := tb } := by
  unfold withdraw at h
  cases hded : st.token_balances.deduce_tokens_in_out taddr with
  | error e =>
    simp only [hded] at h
    exact Except.noConfusion h
  | ok tokens =>
    simp only [hded] at h
    cases h1 : st.token_balances.deduct_from_token_balance user tokens.fst x with
    | error e =>
      simp only [h1] at h
      exact Except.noConfusion h
    | ok tb =>
      simp only [h1] at h
      cases h
      exact ⟨tokens, tb, rfl, h1, rfl⟩

/-- Claim C3: for every successful core operation (swap, provide_liquidity,
provide_initial_liquidity, reclaim_liquidity) the sum of the balances of a
given real token over any duplicate-free address list containing the acting
user and the pool address is unchanged (the liquidity pseudo-token is minted
and burned by the provision operations by design), while the deposit
crediting callback increases the sum of exactly its token by the deposited
amount and withdraw decreases the sum of the withdrawn token by exactly the
withdrawn amount. -/
theorem claim_C3_conservation :
    (∀ st st2 : LiquiditySwapContractState, ∀ user tin : Address, ∀ x minOut : Nat,
      ∀ L : List Address, L.Nodup → user ∈ L → st.liquidity_pool_address ∈ L →
      swap st user tin x minOut = Except.ok st2 →
      ∀ t, sumBal st2.token_balances.balances t L = sumBal st.token_balances.balances t L) ∧
    (∀ st st2 : LiquiditySwapContractState, ∀ user taddr : Address, ∀ x : Nat,
      ∀ L : List Address, L.Nodup → user ∈ L → st.liquidity_pool_address ∈ L →
      provide_liquidity st user taddr x = Except.ok st2 →
      ∀ t, t ≠ Token.LIQUIDITY →
      sumBal st2.token_balances.balances t L = sumBal st.token_balances.balances t L) ∧
    (∀ st st2 : LiquiditySwapContractState, ∀ user : Address, ∀ xa xb : Nat,
      ∀ L : List Address, L.Nodup → user ∈ L → st.liquidity_pool_address ∈ L →
      provide_initial_liquidity st user xa xb = Except.ok st2 →
      ∀ t, t ≠ Token.LIQUIDITY →
      sumBal st2.token_balances.balances t L = sumBal st.token_balances.balances t L) ∧
    (∀ st st2 : LiquiditySwapContractState, ∀ user : Address, ∀ amt : Nat,
      ∀ L : List Address, L.Nodup → user ∈ L → st.liquidity_pool_address ∈ L →
      reclaim_liquidity st user amt = Except.ok st2 →
      ∀ t, t ≠ Token.LIQUIDITY →
      sumBal st2.token_balances.balances t L = sumBal st.token_balances.balances t L) ∧
    (∀ st st2 : LiquiditySwapContractState, ∀ user : Address, ∀ t : Token, ∀ x : Nat,
      ∀ L : List Address, L.Nodup → user ∈ L →
      deposit_callback st user t x = Except.ok st2 →
      sumBal st2.token_balances.balances t L = sumBal st.token_balances.balances t L + x ∧
      (∀ t2, t2 ≠ t →
        sumBal st2.token_balances.balances t2 L = sumBal st.token_balances.balances t2 L)) ∧
    (∀ st st2 : LiquiditySwapContractState, ∀ user taddr : Address, ∀ x : Nat,
      ∀ L : List Address, L.Nodup → user ∈ L →
      withdraw st user taddr x = Except.ok st2 →
      ∀ tokens : Token × Token,
      st.token_balances.deduce_tokens_in_out taddr = Except.ok tokens →
      sumBal st2.token_balances.balances tokens.fst L + x =
        sumBal st.token_balances.balances tokens.fst L ∧
      (∀ t2, t2 ≠ tokens.fst →
        sumBal st2.token_balances.balances t2 L = sumBal st.token_balances.balances t2 L)) := by
  refine ⟨?_, ?_, ?_, ?_, ?_, ?_⟩
  · intro st st2 user tin x minOut L hnd huser hpool h t
    rcases swap_ok_elim h with ⟨tokens, out, tb1, tb2, -, -, -, -, hmv1, hmv2, rfl⟩
    have s1 := move_ok_sum hmv1 hnd huser hpool
    have s2 := move_ok_sum hmv2 hnd hpool huser
    rw [s2 t, s1 t]
  · intro st st2 user taddr x L hnd huser hpool h t ht
    rcases provide_liquidity_ok_elim h with ⟨tokens, eqmint, -, -, -, hint⟩
    rcases provide_internal_ok_elim hint with ⟨tb1, tb2, tb3, tb4, hmv1, hmv2, ha3, ha4, rfl⟩
    have s1 := move_ok_sum hmv1 hnd huser hpool
    have s2 := move_ok_sum hmv2 hnd huser hpool
    have s3 := (add_ok_sum ha3 hnd huser).2 t ht
    have s4 := (add_ok_sum ha4 hnd hpool).2 t ht
    rw [s4, s3, s2 t, s1 t]
  · intro st st2 user xa xb L hnd huser hpool h t ht
    rcases provide_initial_ok_elim h with ⟨minted, -, -, -, hint⟩
    rcases provide_internal_ok_elim hint with ⟨tb1, tb2, tb3, tb4, hmv1, hmv2, ha3, ha4, rfl⟩
    have s1 := move_ok_sum hmv1 hnd huser hpool
    have s2 := move_ok_sum hmv2 hnd huser hpool
    have s3 := (add_ok_sum ha3 hnd huser).2 t ht
    have s4 := (add_ok_sum ha4 hnd hpool).2 t ht
    rw [s4, s3, s2 t, s1 t]
  · intro st st2 user amt L hnd huser hpool h t ht
    rcases reclaim_ok_elim h with ⟨tb0, outputs, tb1, tb2, tb3, hd0, -, hmv1, hmv2, hd3, rfl⟩
    have s0 := (deduct_ok_sum hd0 hnd huser).2 t ht
    have s1 := move_ok_sum hmv1 hnd hpool huser
    have s2 := move_ok_sum hmv2 hnd hpool huser
    have s3 := (deduct_ok_sum hd3 hnd hpool).2 t ht
    rw [s3, s2 t, s1 t, s0]
  · intro st st2 user t x L hnd huser h
    rcases deposit_callback_ok_elim h with ⟨tb, ha, rfl⟩
    exact add_ok_sum ha hnd huser
  · intro st st2 user taddr x L hnd huser h tokens hded
    rcases withdraw_ok_elim h with ⟨tokens0, tb, hded0, hdd, rfl⟩
    rw [hded0] at hded
    cases hded
    exact deduct_ok_sum hdd hnd huser

theorem add_ok_get {tb : TokenBalances} {addr : Address} {t : Token} {x : Nat}
    {tb2 : TokenBalances} (h : tb.add_to_token_balance addr t x = Except.ok tb2) :
    (tb2.balances addr).get_amount_of t = (tb.balances addr).get_amount_of t + x ∧
    (∀ t2, t2 ≠ t →
      (tb2.balances addr).get_amount_of t2 = (tb.balances addr).get_amount_of t2) ∧
    (∀ y, y ≠ addr → tb2.balances y = tb.balances y) := by
  rcases (add_ok_iff tb addr t x tb2).mp h with ⟨-, rfl⟩
  refine ⟨?_, ?_, ?_⟩
  · rw [updBal_at_same, get_set_same]
  · intro t2 ht2
    rw [updBal_at_same, get_set_other _ _ _ _ ht2]
  · intro y hy
    rw [updBal_at_other _ _ _ _ _ hy]

theorem deduct_ok_get {tb : TokenBalances} {addr : Address} {t : Token} {x : Nat}
    {tb2 : TokenBalances} (h : tb.deduct_from_token_balance addr t x = Except.ok tb2) :
    x ≤ (tb.balances addr).get_amount_of t ∧
    (tb2.balances addr).get_amount_of t = (tb.balances addr).get_amount_of t - x ∧
    (∀ t2, t2 ≠ t →
      (tb2.balances addr).get_amount_of t2 = (tb.balances addr).get_amount_of t2) ∧
    (∀ y, y ≠ addr → tb2.balances y = tb.balances y) := by
  rcases (deduct_ok_iff tb addr t x tb2).mp h with ⟨hle, rfl⟩
  refine ⟨hle, ?_, ?_, ?_⟩
  · rw [updBal_at_same, get_set_same]
  · intro t2 ht2
    rw [updBal_at_same, get_set_other _ _ _ _ ht2]
  · intro y hy
    rw [updBal_at_other _ _ _ _ _ hy]

theorem calc_eq_minted_ok_elim {x ain aout L e s : Nat}
    (h : calculate_equivalent_and_minted_tokens x ain aout L = Except.ok (e, s)) :
    ain ≠ 0 ∧ s = x * L / ain ∧ (0 < x → e = x * aout / ain + 1) ∧ (¬ 0 < x → e = 0) := by
  unfold calculate_equivalent_and_minted_tokens at h
  by_cases hx : 0 < x
  · rw [if_pos hx] at h
    split at h
    · split at h
      · exact Except.noConfusion h
      · rename_i hain
        split at h
        · split at h
          · cases h
            exact ⟨hain, rfl, fun _ => rfl, fun hc => absurd hx hc⟩
          · exact Except.noConfusion h
        · exact Except.noConfusion h
    · exact Except.noConfusion h
  · rw [if_neg hx] at h
    split at h
    · split at h
      · exact Except.noConfusion h
      · rename_i hain
        cases h
        exact ⟨hain, rfl, fun hc => absurd hc hx, fun _ => rfl⟩
    · exact Except.noConfusion h

theorem calc_reclaim_ok_elim {amt pa pb ml ao bo : Nat}
    (h : calculate_reclaim_output amt pa pb ml = Except.ok (ao, bo)) :
    ml ≠ 0 ∧ ao = pa * amt / ml ∧ bo = pb * amt / ml := by
  unfold calculate_reclaim_output at h
  split at h
  · split at h
    · split at h
      · exact Except.noConfusion h
      · rename_i hml
        cases h
        exact ⟨hml, rfl, rfl⟩
    · exact Except.noConfusion h
  · exact Except.noConfusion h

theorem reclaim_le_in (a x L s : Nat) (hs : 0 < s) (hsa : s * a ≤ x * L) :
    (a + x) * s / (L + s) ≤ x := by
  have hLs : 0 < L + s := by omega
  have h2 : (a + x) * s < (x + 1) * (L + s) := by nlinarith
  have h3 := (Nat.div_lt_iff_lt_mul hLs).mpr h2
  omega

theorem div_add_one_mul_gt (n a : Nat) (ha : 0 < a) : n < (n / a + 1) * a := by
  have h1 := Nat.div_add_mod n a
  have h2 : n % a < a := Nat.mod_lt _ ha
  nlinarith

theorem reclaim_le_out (b e a x L s : Nat) (ha : 0 < a) (hs : 0 < s)
    (hsa : s * a ≤ x * L) (hea : x * b < e * a) :
    (b + e) * s / (L + s) ≤ e := by
  have hLs : 0 < L + s := by omega
  have hbs : b * s ≤ e * L := by
    have h1 : b * s * a ≤ b * (x * L) := by nlinarith
    have h2 : b * (x * L) ≤ e * L * a := by nlinarith
    exact Nat.le_of_mul_le_mul_right (le_trans h1 h2) ha
  have h2 : (b + e) * s < (e + 1) * (L + s) := by nlinarith
  have h3 := (Nat.div_lt_iff_lt_mul hLs).mpr h2
  omega

theorem provide_internal_ok_get {st : LiquiditySwapContractState} {user : Address}
    {tokens : Token × Token} {x e s : Nat} {st1 : LiquiditySwapContractState}
    (hne : user ≠ st.liquidity_pool_address)
    (hfs : tokens.fst ≠ tokens.snd)
    (hfl : tokens.fst ≠ Token.LIQUIDITY)
    (hsl : tokens.snd ≠ Token.LIQUIDITY)
    (h : provide_liquidity_internal st user tokens x e s = Except.ok st1) :
    x ≤ (st.token_balances.balances user).get_amount_of tokens.fst ∧
    e ≤ (st.token_balances.balances user).get_amount_of tokens.snd ∧
    (st1.token_balances.balances user).get_amount_of tokens.fst =
      (st.token_balances.balances user).get_amount_of tokens.fst - x ∧
    (st1.token_balances.balances user).get_amount_of tokens.snd =
      (st.token_balances.balances user).get_amount_of tokens.snd - e ∧
    (st1.token_balances.balances user).get_amount_of Token.LIQUIDITY =
      (st.token_balances.balances user).get_amount_of Token.LIQUIDITY + s ∧
    (st1.token_balances.balances st.liquidity_pool_address).get_amount_of tokens.fst =
      (st.token_balances.balances st.liquidity_pool_address).get_amount_of tokens.fst + x ∧
    (st1.token_balances.balances st.liquidity_pool_address).get_amount_of tokens.snd =
      (st.token_balances.balances st.liquidity_pool_address).get_amount_of tokens.snd + e ∧
    (st1.token_balances.balances st.liquidity_pool_address).get_amount_of Token.LIQUIDITY =
      (st.token_balances.balances st.liquidity_pool_address).get_amount_of Token.LIQUIDITY
        + s ∧
    st1.liquidity_pool_address = st.liquidity_pool_address := by
  rcases provide_internal_ok_elim h with ⟨tb1, tb2, tb3, tb4, hmv1, hmv2, ha3, ha4, rfl⟩
  rcases move_ok_get hmv1 hne with ⟨hle1, hu1, hp1, hoth1, -⟩
  rcases move_ok_get hmv2 hne with ⟨hle2, hu2, hp2, hoth2, -⟩
  rcases add_ok_get ha3 with ⟨hu3, hoth3, hrest3⟩
  rcases add_ok_get ha4 with ⟨hp4, hoth4, hrest4⟩
  have e4u : tb4.balances user = tb3.balances user := hrest4 user hne
  have e3P : tb3.balances st.liquidity_pool_address =
      tb2.balances st.liquidity_pool_address := hrest3 _ (Ne.symm hne)
  have hu1g : (tb1.balances user).get_amount_of tokens.snd =
      (st.token_balances.balances user).get_amount_of tokens.snd :=
    hoth1 tokens.snd (Ne.symm hfs) user
  refine ⟨hle1, ?_, ?_, ?_, ?_, ?_, ?_, ?_, rfl⟩
  · rw [← hu1g]
    exact hle2
  · dsimp only
    rw [e4u, hoth3 tokens.fst hfl, hoth2 tokens.fst hfs user, hu1]
  · dsimp only
    rw [e4u, hoth3 tokens.snd hsl, hu2, hu1g]
  · dsimp only
    rw [e4u, hu3, hoth2 Token.LIQUIDITY (Ne.symm hsl) user,
      hoth1 Token.LIQUIDITY (Ne.symm hfl) user]
  · dsimp only
    rw [hoth4 tokens.fst hfl, e3P, hoth2 tokens.fst hfs, hp1]
  · dsimp only
    rw [hoth4 tokens.snd hsl, e3P, hp2, hoth1 tokens.snd (Ne.symm hfs)]
  · dsimp only
    rw [hp4, e3P, hoth2 Token.LIQUIDITY (Ne.symm hsl),
      hoth1 Token.LIQUIDITY (Ne.symm hfl)]

theorem reclaim_ok_get {st1 : LiquiditySwapContractState} {user : Address} {amt : Nat}
    {st2 : LiquiditySwapContractState}
    (hne : user ≠ st1.liquidity_pool_address)
    (h : reclaim_liquidity st1 user amt = Except.ok st2) :
    ∃ ao bo,
      amt ≤ (st1.token_balances.balances user).get_amount_of Token.LIQUIDITY ∧
      (st1.token_balances.balances st1.liquidity_pool_address).liquidity_tokens ≠ 0 ∧
      ao = (st1.token_balances.balances st1.liquidity_pool_address).a_tokens * amt /
        (st1.token_balances.balances st1.liquidity_pool_address).liquidity_tokens ∧
      bo = (st1.token_balances.balances st1.liquidity_pool_address).b_tokens * amt /
        (st1.token_balances.balances st1.liquidity_pool_address).liquidity_tokens ∧
      (st2.token_balances.balances user).get_amount_of Token.A =
        (st1.token_balances.balances user).get_amount_of Token.A + ao ∧
      (st2.token_balances.balances user).get_amount_of Token.B =
        (st1.token_balances.balances user).get_amount_of Token.B + bo ∧
      (st2.token_balances.balances user).get_amount_of Token.LIQUIDITY =
        (st1.token_balances.balances user).get_amount_of Token.LIQUIDITY - amt := by
  rcases reclaim_ok_elim h with ⟨tb0, outputs, tb1, tb2, tb3, hd0, hcalc, hmv1, hmv2, hd3, rfl⟩
  obtain ⟨ao, bo⟩ := outputs
  rcases deduct_ok_get hd0 with ⟨hle0, hu0, hoth0, hrest0⟩
  have e0P : tb0.balances st1.liquidity_pool_address =
      st1.token_balances.balances st1.liquidity_pool_address := hrest0 _ (Ne.symm hne)
  rw [show tb0.get_balance_for st1.liquidity_pool_address =
      st1.token_balances.balances st1.liquidity_pool_address from e0P] at hcalc
  rcases calc_reclaim_ok_elim hcalc with ⟨hml, hao, hbo⟩
  rcases move_ok_get hmv1 (Ne.symm hne) with ⟨hleA, hpA, huA, hothA, -⟩
  rcases move_ok_get hmv2 (Ne.symm hne) with ⟨hleB, hpB, huB, hothB, -⟩
  rcases deduct_ok_get hd3 with ⟨hle3, hp3, hoth3, hrest3⟩
  have e3u : tb3.balances user = tb2.balances user := hrest3 user hne
  refine ⟨ao, bo, hle0, hml, hao, hbo, ?_, ?_, ?_⟩
  · dsimp only
    rw [e3u, hothB Token.A (by decide) user, huA, hoth0 Token.A (by decide)]
  · dsimp only
    rw [e3u, huB, hothA Token.B (by decide) user, hoth0 Token.B (by decide)]
  · dsimp only
    rw [e3u, hothB Token.LIQUIDITY (by decide) user,
      hothA Token.LIQUIDITY (by decide) user, hu0]

/-- Claim C5: when providing liquidity succeeds, minting s positive shares
for amount_in of the input token and the computed equivalent of the output
token, then immediately reclaiming those same s shares (whenever the reclaim
completes) returns the user to token balances no larger than before the
provision, and restores the user liquidity-share balance exactly; the user
never receives more than was provided. -/
theorem claim_C5_provide_reclaim :
    ∀ st st1 st2 : LiquiditySwapContractState, ∀ user taddr : Address, ∀ x : Nat,
    ∀ tokens : Token × Token, ∀ eqmint : Nat × Nat,
    user ≠ st.liquidity_pool_address →
    st.token_balances.deduce_tokens_in_out taddr = Except.ok tokens →
    calculate_equivalent_and_minted_tokens x
      ((st.token_balances.get_balance_for st.liquidity_pool_address).get_amount_of tokens.fst)
      ((st.token_balances.get_balance_for st.liquidity_pool_address).get_amount_of tokens.snd)
      (st.token_balances.get_balance_for st.liquidity_pool_address).liquidity_tokens =
      Except.ok eqmint →
    provide_liquidity st user taddr x = Except.ok st1 →
    reclaim_liquidity st1 user eqmint.snd = Except.ok st2 →
    (st2.token_balances.balances user).a_tokens ≤
      (st.token_balances.balances user).a_tokens ∧
    (st2.token_balances.balances user).b_tokens ≤
      (st.token_balances.balances user).b_tokens ∧
    (st2.token_balances.balances user).liquidity_tokens =
      (st.token_balances.balances user).liquidity_tokens := by
  intro st st1 st2 user taddr x tokens eqmint hne hded hcalc hpro hrec
  rcases provide_liquidity_ok_elim hpro with ⟨tokens0, eqmint0, hded0, hcalc0, hs0, hint⟩
  rw [hded0] at hded
  cases hded
  rw [hcalc0] at hcalc
  cases hcalc
  obtain ⟨e, s⟩ := eqmint
  dsimp only at hs0 hrec
  rcases calc_eq_minted_ok_elim hcalc0 with ⟨hain, hs_eq, hepos, -⟩
  have hx0 : x ≠ 0 := by
    intro h0
    rw [h0] at hs_eq
    simp at hs_eq
    exact hs0 hs_eq
  have hxpos : 0 < x := Nat.pos_of_ne_zero hx0
  have he := hepos hxpos
  have hspos : 0 < s := Nat.pos_of_ne_zero hs0
  have hsa : s * ((st.token_balances.get_balance_for
      st.liquidity_pool_address).get_amount_of tokens.fst) ≤
      x * (st.token_balances.get_balance_for st.liquidity_pool_address).liquidity_tokens := by
    rw [hs_eq]
    exact Nat.div_mul_le_self _ _
  have hea : x * ((st.token_balances.get_balance_for
      st.liquidity_pool_address).get_amount_of tokens.snd) <
      e * ((st.token_balances.get_balance_for
        st.liquidity_pool_address).get_amount_of tokens.fst) := by
    rw [he]
    exact div_add_one_mul_gt _ _ (Nat.pos_of_ne_zero hain)
  rcases deduce_elim hded0 with htok | htok <;> subst htok
  · rcases provide_internal_ok_get hne (by decide) (by decide) (by decide) hint with
      ⟨hxle, hele, huf, hug, hul, hpf, hpg, hpl, hpa⟩
    have hne1 : user ≠ st1.liquidity_pool_address := by rw [hpa]; exact hne
    rcases reclaim_ok_get hne1 hrec with ⟨ao, bo, hamt, hml, hao, hbo, huA2, huB2, huL2⟩
    simp only [TokenBalances.get_balance_for, get_amount_A, get_amount_B, get_amount_L]
      at hxle hele huf hug hul hpf hpg hpl hsa hea hain
    rw [hpa] at hml hao hbo
    simp only [get_amount_A, get_amount_B, get_amount_L] at huA2 huB2 huL2
    rw [hpf, hpl] at hao
    rw [hpg, hpl] at hbo
    have hboundA : ao ≤ x := by
      rw [hao]
      exact reclaim_le_in _ x _ s hspos hsa
    have hboundB : bo ≤ e := by
      rw [hbo]
      exact reclaim_le_out _ e _ x _ s (Nat.pos_of_ne_zero hain) hspos hsa hea
    refine ⟨?_, ?_, ?_⟩
    · rw [huA2, huf]
      omega
    · rw [huB2, hug]
      omega
    · rw [huL2, hul]
      omega
  · rcases provide_internal_ok_get hne (by decide) (by decide) (by decide) hint with
      ⟨hxle, hele, huf, hug, hul, hpf, hpg, hpl, hpa⟩
    have hne1 : user ≠ st1.liquidity_pool_address := by rw [hpa]; exact hne
    rcases reclaim_ok_get hne1 hrec with ⟨ao, bo, hamt, hml, hao, hbo, huA2, huB2, huL2⟩
    simp only [TokenBalances.get_balance_for, get_amount_A, get_amount_B, get_amount_L]
      at hxle hele huf hug hul hpf hpg hpl hsa hea hain
    rw [hpa] at hml hao hbo
    simp only [get_amount_A, get_amount_B, get_amount_L] at huA2 huB2 huL2
    rw [hpg, hpl] at hao
    rw [hpf, hpl] at hbo
    have hboundA : ao ≤ e := by
      rw [hao]
      exact reclaim_le_out _ e _ x _ s (Nat.pos_of_ne_zero hain) hspos hsa hea
    have hboundB : bo ≤ x := by
      rw [hbo]
      exact reclaim_le_in _ x _ s hspos hsa
    refine ⟨?_, ?_, ?_⟩
    · rw [huA2, hug]
      omega
    · rw [huB2, huf]
      omega
    · rw [huL2, hul]
      omega

/-- Witness for claim C3: the first concrete swap conserves the token-A sum
over the pool and the user, and the deposit callback raises it by exactly 7. -/
theorem claim_C3_conservation_witness :
    sumBal c1_state3.token_balances.balances Token.A [0, 5] =
      sumBal c1_state.token_balances.balances Token.A [0, 5] ∧
    sumBal c3_state_dep.token_balances.balances Token.A [0, 5] =
      sumBal c1_state.token_balances.balances Token.A [0, 5] + 7 :=
  ⟨claim_C3_conservation.1 c1_state c1_state3 5 1 10 0 [0, 5] (by decide) (by decide)
     (by decide) (by rfl) Token.A,
   (claim_C3_conservation.2.2.2.2.1 c1_state c3_state_dep 5 Token.A 7 [0, 5] (by decide)
     (by decide) (by rfl)).1⟩

/-- Witness for claim C5 on the concrete round trip: user 5 ends with no more
of either token than before and with the original share balance. -/
theorem claim_C5_provide_reclaim_witness :
    (c5_state2.token_balances.balances 5).a_tokens ≤
      (c5_state.token_balances.balances 5).a_tokens ∧
    (c5_state2.token_balances.balances 5).b_tokens ≤
      (c5_state.token_balances.balances 5).b_tokens ∧
    (c5_state2.token_balances.balances 5).liquidity_tokens =
      (c5_state.token_balances.balances 5).liquidity_tokens :=
  claim_C5_provide_reclaim c5_state c5_state1 c5_state2 5 1 10 (Token.A, Token.B) (21, 5)
    (by decide) (by rfl) (by rfl) (by rfl) (by rfl)

/-- Counterexample for claim C7: on the freshly initialized pool (both
reserves zero), provide_liquidity with amount 0 aborts with a
division-by-zero panic, not with the ZeroLiquidityMinted rejection. -/
theorem claim_C7_counterexample :
    provide_liquidity c7_state 5 1 0 = Except.error LsError.divisionByZero ∧
    LsError.divisionByZero ≠ LsError.zeroLiquidityMinted :=
  ⟨by rfl, by decide⟩

/-- Claim C7 (amended): on every pool state whose token_in reserve is
non-zero, provide_liquidity with amount_in 0 fails with ZeroLiquidityMinted
and performs no division by zero; more generally the operation is rejected
with ZeroLiquidityMinted whenever the computed shares_minted is 0.  On a
pool whose token_in reserve is zero the operation instead aborts with a
division-by-zero panic. -/
theorem claim_C7_amended :
    (∀ st : LiquiditySwapContractState, ∀ user taddr : Address, ∀ tokens : Token × Token,
      st.token_balances.deduce_tokens_in_out taddr = Except.ok tokens →
      (st.token_balances.get_balance_for st.liquidity_pool_address).get_amount_of
        tokens.fst ≠ 0 →
      provide_liquidity st user taddr 0 = Except.error LsError.zeroLiquidityMinted) ∧
    (∀ st : LiquiditySwapContractState, ∀ user taddr : Address, ∀ x : Nat,
      ∀ tokens : Token × Token, ∀ eqmint : Nat × Nat,
      st.token_balances.deduce_tokens_in_out taddr = Except.ok tokens →
      calculate_equivalent_and_minted_tokens x
        ((st.token_balances.get_balance_for st.liquidity_pool_address).get_amount_of
          tokens.fst)
        ((st.token_balances.get_balance_for st.liquidity_pool_address).get_amount_of
          tokens.snd)
        (st.token_balances.get_balance_for st.liquidity_pool_address).liquidity_tokens =
        Except.ok eqmint →
      eqmint.snd = 0 →
      provide_liquidity st user taddr x = Except.error LsError.zeroLiquidityMinted) := by
  constructor
  · intro st user taddr tokens hded hain
    have hc : calculate_equivalent_and_minted_tokens 0
        ((st.token_balances.get_balance_for st.liquidity_pool_address).get_amount_of
          tokens.fst)
        ((st.token_balances.get_balance_for st.liquidity_pool_address).get_amount_of
          tokens.snd)
        (st.token_balances.get_balance_for st.liquidity_pool_address).liquidity_tokens =
        Except.ok (0, 0) := by
      have hU : (0:Nat) < U128_MOD := by norm_num [U128_MOD]
      simp [calculate_equivalent_and_minted_tokens, hain, hU]
    unfold provide_liquidity
    simp only [hded, hc]
    simp
  · intro st user taddr x tokens eqmint hded hcalc hz
    unfold provide_liquidity
    simp only [hded, hcalc, hz]
    simp [hz]

/-- Witness for the amended claim C7: on the Active concrete pool, a zero
provision and a dust provision that mints zero shares are both rejected with
ZeroLiquidityMinted. -/
theorem claim_C7_amended_witness :
    provide_liquidity c1_state 5 1 0 = Except.error LsError.zeroLiquidityMinted ∧
    provide_liquidity c1_state 5 1 5 = Except.error LsError.zeroLiquidityMinted :=
  ⟨claim_C7_amended.1 c1_state 5 1 (Token.A, Token.B) (by rfl) (by decide),
   claim_C7_amended.2 c1_state 5 1 5 (Token.A, Token.B) (6, 0) (by rfl) (by rfl) (by rfl)⟩

theorem initial_liquidity_ok_elim {xa xb minted : Nat}
    (h : initial_liquidity_tokens xa xb = Except.ok minted) :
    minted = u128_sqrt (xa * xb) := by
  unfold initial_liquidity_tokens at h
  split at h
  · cases h
    rfl
  · exact Except.noConfusion h

theorem reclaim_ok_pool_get {st1 : LiquiditySwapContractState} {user : Address} {amt : Nat}
    {st2 : LiquiditySwapContractState}
    (hne : user ≠ st1.liquidity_pool_address)
    (h : reclaim_liquidity st1 user amt = Except.ok st2) :
    ∃ ao bo,
      (st1.token_balances.balances st1.liquidity_pool_address).liquidity_tokens ≠ 0 ∧
      ao = (st1.token_balances.balances st1.liquidity_pool_address).a_tokens * amt /
        (st1.token_balances.balances st1.liquidity_pool_address).liquidity_tokens ∧
      bo = (st1.token_balances.balances st1.liquidity_pool_address).b_tokens * amt /
        (st1.token_balances.balances st1.liquidity_pool_address).liquidity_tokens ∧
      amt ≤ (st1.token_balances.balances st1.liquidity_pool_address).liquidity_tokens ∧
      ao ≤ (st1.token_balances.balances st1.liquidity_pool_address).a_tokens ∧
      bo ≤ (st1.token_balances.balances st1.liquidity_pool_address).b_tokens ∧
      (st2.token_balances.balances st1.liquidity_pool_address).a_tokens =
        (st1.token_balances.balances st1.liquidity_pool_address).a_tokens - ao ∧
      (st2.token_balances.balances st1.liquidity_pool_address).b_tokens =
        (st1.token_balances.balances st1.liquidity_pool_address).b_tokens - bo ∧
      st2.liquidity_pool_address = st1.liquidity_pool_address := by
  rcases reclaim_ok_elim h with ⟨tb0, outputs, tb1, tb2, tb3, hd0, hcalc, hmv1, hmv2, hd3, rfl⟩
  obtain ⟨ao, bo⟩ := outputs
  rcases deduct_ok_get hd0 with ⟨-, -, -, hrest0⟩
  have e0P : tb0.balances st1.liquidity_pool_address =
      st1.token_balances.balances st1.liquidity_pool_address := hrest0 _ (Ne.symm hne)
  rw [show tb0.get_balance_for st1.liquidity_pool_address =
      st1.token_balances.balances st1.liquidity_pool_address from e0P] at hcalc
  rcases calc_reclaim_ok_elim hcalc with ⟨hml, hao, hbo⟩
  rcases move_ok_get hmv1 (Ne.symm hne) with ⟨hleA, hpA, huA, hothA, -⟩
  rcases move_ok_get hmv2 (Ne.symm hne) with ⟨hleB, hpB, huB, hothB, -⟩
  rcases deduct_ok_get hd3 with ⟨hle3, hp3, hoth3, -⟩
  have hL2 : (tb2.balances st1.liquidity_pool_address).get_amount_of Token.LIQUIDITY =
      (st1.token_balances.balances st1.liquidity_pool_address).get_amount_of
        Token.LIQUIDITY := by
    rw [hothB Token.LIQUIDITY (by decide), hothA Token.LIQUIDITY (by decide), e0P]
  refine ⟨ao, bo, hml, hao, hbo, ?_, ?_, ?_, ?_, ?_, rfl⟩
  · rw [← get_amount_L, ← hL2]
    exact hle3
  · have h1 := hleA
    rw [e0P, get_amount_A] at h1
    exact h1
  · have h1 := hleB
    rw [hothA Token.B (by decide), e0P, get_amount_B] at h1
    exact h1
  · dsimp only
    rw [← get_amount_A, hoth3 Token.A (by decide), hothB Token.A (by decide), hpA, e0P,
      get_amount_A]
  · dsimp only
    rw [← get_amount_B, hoth3 Token.B (by decide), hpB, hothA Token.B (by decide), e0P,
      get_amount_B]

/-- Counterexample for claim C8: starting from a freshly initialized
contract, user 5 deposits, provides initial liquidity (reaching the Active
phase), then reclaims all shares, draining both reserves back to the
Uninitialized phase, after which provide_initial_liquidity succeeds a second
time. -/
theorem claim_C8_counterexample :
    lsIsOk (provide_initial_liquidity c8_state2 5 4 9) = true ∧
    contract_pools_have_liquidity c8_state3 = true ∧
    lsIsOk (reclaim_liquidity c8_state3 5 6) = true ∧
    contract_pools_have_liquidity c8_state4 = false ∧
    lsIsOk (provide_initial_liquidity c8_state4 5 4 9) = true :=
  ⟨by rfl, by rfl, by rfl, by rfl, by rfl⟩

/-- Claim C8 (amended): with every operation invoked by a sender other than
the pool address (the contract never invokes itself), a freshly initialized
pool has both reserves zero, and the phase invariant that the reserves are
either both zero (Uninitialized) or both non-zero (Active) is preserved by
every successful operation: swaps and liquidity provisions leave the pool
Active and reclaim keeps the invariant, while deposit and withdraw never
touch the pool record.  On a both-zero pool, swap fails with PoolNotLiquid,
provide_liquidity always fails, and reclaim, deposit and withdraw leave both
reserves zero, so along every such sequence the Uninitialized-to-Active
transition occurs only via provide_initial_liquidity; on an Active pool
provide_initial_liquidity fails with AlreadyLiquid.  The transition is not
irreversible, however: reclaim_liquidity can drain both reserves, returning
the pool to the Uninitialized phase, after which provide_initial_liquidity
can succeed again, so the transition can occur more than once. -/
theorem claim_C8_amended :
    (∀ ca ta tb fee : Nat, ∀ st : LiquiditySwapContractState,
      init_contract ca ta tb fee = Except.ok st → pool_both_zero st) ∧
    (∀ st : LiquiditySwapContractState, ∀ user : Address, ∀ xa xb : Nat,
      contract_pools_have_liquidity st = true →
      provide_initial_liquidity st user xa xb = Except.error LsError.alreadyLiquid) ∧
    (∀ st st2 : LiquiditySwapContractState, ∀ user tin : Address, ∀ x minOut : Nat,
      user ≠ st.liquidity_pool_address →
      swap st user tin x minOut = Except.ok st2 →
      contract_pools_have_liquidity st2 = true) ∧
    (∀ st : LiquiditySwapContractState, ∀ user tin : Address, ∀ x minOut : Nat,
      pool_both_zero st →
      swap st user tin x minOut = Except.error LsError.poolNotLiquid) ∧
    (∀ st st2 : LiquiditySwapContractState, ∀ user taddr : Address, ∀ x : Nat,
      pool_both_zero st →
      provide_liquidity st user taddr x ≠ Except.ok st2) ∧
    (∀ st st2 : LiquiditySwapContractState, ∀ user : Address, ∀ amt : Nat,
      user ≠ st.liquidity_pool_address → pool_both_zero st →
      reclaim_liquidity st user amt = Except.ok st2 → pool_both_zero st2) ∧
    (∀ st st2 : LiquiditySwapContractState, ∀ user : Address, ∀ t : Token, ∀ x : Nat,
      user ≠ st.liquidity_pool_address →
      deposit_callback st user t x = Except.ok st2 →
      st2.token_balances.balances st.liquidity_pool_address =
        st.token_balances.balances st.liquidity_pool_address ∧
      st2.liquidity_pool_address = st.liquidity_pool_address) ∧
    (∀ st st2 : LiquiditySwapContractState, ∀ user taddr : Address, ∀ x : Nat,
      user ≠ st.liquidity_pool_address →
      withdraw st user taddr x = Except.ok st2 →
      st2.token_balances.balances st.liquidity_pool_address =
        st.token_balances.balances st.liquidity_pool_address ∧
      st2.liquidity_pool_address = st.liquidity_pool_address) ∧
    (∀ st st2 : LiquiditySwapContractState, ∀ user : Address, ∀ xa xb : Nat,
      user ≠ st.liquidity_pool_address →
      provide_initial_liquidity st user xa xb = Except.ok st2 →
      contract_pools_have_liquidity st2 = true) ∧
    (∀ st st2 : LiquiditySwapContractState, ∀ user taddr : Address, ∀ x : Nat,
      user ≠ st.liquidity_pool_address →
      provide_liquidity st user taddr x = Except.ok st2 →
      contract_pools_have_liquidity st2 = true) ∧
    (∀ st st2 : LiquiditySwapContractState, ∀ user : Address, ∀ amt : Nat,
      user ≠ st.liquidity_pool_address → pool_phase_ok st →
      reclaim_liquidity st user amt = Except.ok st2 → pool_phase_ok st2) := by
  refine ⟨?_, ?_, ?_, ?_, ?_, ?_, ?_, ?_, ?_, ?_, ?_⟩
  · intro ca ta tb fee st h
    unfold init_contract at h
    split at h
    · cases h
      exact ⟨rfl, rfl⟩
    · exact Except.noConfusion h
  · intro st user xa xb hliq
    unfold provide_initial_liquidity
    simp only [hliq]
    simp
  · intro st st2 user tin x minOut hne h
    exact (swap_step_product hne h).2.2.2.1
  · intro st user tin x minOut hz
    have hliq : contract_pools_have_liquidity st = false := by
      simp [contract_pools_have_liquidity, TokenBalances.get_balance_for, hz.1]
    unfold swap
    simp [hliq]
  · intro st st2 user taddr x hz h
    rcases provide_liquidity_ok_elim h with ⟨tokens, eqmint, hded, hcalc, -, -⟩
    obtain ⟨e, s⟩ := eqmint
    rcases calc_eq_minted_ok_elim hcalc with ⟨hain, -, -, -⟩
    rcases deduce_elim hded with htok | htok <;> subst htok <;>
      simp only [TokenBalances.get_balance_for, get_amount_A, get_amount_B] at hain
    · exact hain hz.1
    · exact hain hz.2
  · intro st st2 user amt hne hz hrec
    rcases reclaim_ok_pool_get hne hrec with ⟨ao, bo, -, hao, hbo, -, -, -, hA2, hB2, hpa⟩
    rw [hz.1] at hao
    rw [hz.2] at hbo
    simp at hao hbo
    constructor
    · rw [hpa, hA2, hz.1, hao]
    · rw [hpa, hB2, hz.2, hbo]
  · intro st st2 user t x hne h
    rcases deposit_callback_ok_elim h with ⟨tb, ha, rfl⟩
    rcases add_ok_get ha with ⟨-, -, hrest⟩
    exact ⟨hrest _ (Ne.symm hne), rfl⟩
  · intro st st2 user taddr x hne h
    rcases withdraw_ok_elim h with ⟨tokens, tb, -, hdd, rfl⟩
    rcases deduct_ok_get hdd with ⟨-, -, -, hrest⟩
    exact ⟨hrest _ (Ne.symm hne), rfl⟩
  · intro st st2 user xa xb hne h
    rcases provide_initial_ok_elim h with ⟨minted, -, hinit, hm, hint⟩
    have hmv := initial_liquidity_ok_elim hinit
    have hprod : xa * xb ≠ 0 := by
      intro h0
      rw [h0] at hmv
      exact hm hmv
    have hxa : xa ≠ 0 := by
      intro h0
      rw [h0] at hprod
      simp at hprod
    have hxb : xb ≠ 0 := by
      intro h0
      rw [h0] at hprod
      simp at hprod
    rcases provide_internal_ok_get hne (by decide) (by decide) (by decide) hint with
      ⟨-, -, -, -, -, hpf, hpg, -, hpa⟩
    simp only [get_amount_A, get_amount_B] at hpf hpg
    unfold contract_pools_have_liquidity TokenBalances.get_balance_for
    dsimp only
    rw [hpa]
    simp only [Bool.and_eq_true, bne_iff_ne]
    constructor
    · rw [hpf]
      omega
    · rw [hpg]
      omega
  · intro st st2 user taddr x hne h
    rcases provide_liquidity_ok_elim h with ⟨tokens, eqmint, hded, hcalc, hs, hint⟩
    obtain ⟨e, s⟩ := eqmint
    dsimp only at hs hint
    rcases calc_eq_minted_ok_elim hcalc with ⟨hain, hs_eq, hepos, -⟩
    have hx0 : x ≠ 0 := by
      intro h0
      rw [h0] at hs_eq
      simp at hs_eq
      exact hs hs_eq
    have he := hepos (Nat.pos_of_ne_zero hx0)
    have he1 : 0 < e := by
      rw [he]
      exact Nat.succ_pos _
    rcases deduce_elim hded with htok | htok <;> subst htok
    · rcases provide_internal_ok_get hne (by decide) (by decide) (by decide) hint with
        ⟨-, -, -, -, -, hpf, hpg, -, hpa⟩
      simp only [TokenBalances.get_balance_for, get_amount_A, get_amount_B] at hain hpf hpg
      unfold contract_pools_have_liquidity TokenBalances.get_balance_for
      dsimp only
      rw [hpa]
      simp only [Bool.and_eq_true, bne_iff_ne]
      constructor
      · rw [hpf]
        omega
      · rw [hpg]
        omega
    · rcases provide_internal_ok_get hne (by decide) (by decide) (by decide) hint with
        ⟨-, -, -, -, -, hpf, hpg, -, hpa⟩
      simp only [TokenBalances.get_balance_for, get_amount_A, get_amount_B] at hain hpf hpg
      unfold contract_pools_have_liquidity TokenBalances.get_balance_for
      dsimp only
      rw [hpa]
      simp only [Bool.and_eq_true, bne_iff_ne]
      constructor
      · rw [hpg]
        omega
      · rw [hpf]
        omega
  · intro st st2 user amt hne hphase hrec
    rcases reclaim_ok_pool_get hne hrec with
      ⟨ao, bo, hml, hao, hbo, hamtL, haoa, hbob, hA2, hB2, hpa⟩
    cases hphase with
    | inl hz =>
      left
      rw [hz.1] at hao
      rw [hz.2] at hbo
      simp at hao hbo
      constructor
      · rw [hpa, hA2, hz.1, hao]
      · rw [hpa, hB2, hz.2, hbo]
    | inr hact =>
      rcases pools_liquid_elim hact with ⟨ha, hb⟩
      have hL : 0 < (st.token_balances.balances st.liquidity_pool_address).liquidity_tokens :=
        Nat.pos_of_ne_zero hml
      by_cases heq :
          amt = (st.token_balances.balances st.liquidity_pool_address).liquidity_tokens
      · left
        have hcA : ao = (st.token_balances.balances st.liquidity_pool_address).a_tokens := by
          rw [hao, heq]
          exact Nat.mul_div_cancel _ hL
        have hcB : bo = (st.token_balances.balances st.liquidity_pool_address).b_tokens := by
          rw [hbo, heq]
          exact Nat.mul_div_cancel _ hL
        constructor
        · rw [hpa, hA2, hcA]
          omega
        · rw [hpa, hB2, hcB]
          omega
      · right
        have hlt : amt <
            (st.token_balances.balances st.liquidity_pool_address).liquidity_tokens :=
          lt_of_le_of_ne hamtL heq
        have haolt : ao < (st.token_balances.balances st.liquidity_pool_address).a_tokens := by
          rw [hao, Nat.div_lt_iff_lt_mul hL]
          exact mul_lt_mul_of_pos_left hlt ha
        have hbolt : bo < (st.token_balances.balances st.liquidity_pool_address).b_tokens := by
          rw [hbo, Nat.div_lt_iff_lt_mul hL]
          exact mul_lt_mul_of_pos_left hlt hb
        unfold contract_pools_have_liquidity TokenBalances.get_balance_for
        dsimp only
        rw [hpa]
        simp only [Bool.and_eq_true, bne_iff_ne]
        constructor
        · rw [hA2]
          omega
        · rw [hB2]
          omega

/-- Witness for the amended claim C8: each conjunct instantiated on the
concrete states — the fresh pool is both-zero, AlreadyLiquid on the Active
pool, swap keeps it Active, swap and provide fail on the fresh pool, reclaim
on the drained pool keeps both reserves zero, deposit and withdraw leave the
pool record untouched, and provisions activate while reclaim preserves the
phase invariant. -/
theorem claim_C8_amended_witness :
    pool_both_zero c7_state ∧
    provide_initial_liquidity c1_state 5 4 9 = Except.error LsError.alreadyLiquid ∧
    contract_pools_have_liquidity c1_state3 = true ∧
    swap c7_state 5 1 4 0 = Except.error LsError.poolNotLiquid ∧
    provide_liquidity c7_state 5 1 3 ≠ Except.ok c7_state ∧
    pool_both_zero c8e_state2 ∧
    c3_state_dep.token_balances.balances c1_state.liquidity_pool_address =
      c1_state.token_balances.balances c1_state.liquidity_pool_address ∧
    c8w_state.token_balances.balances c1_state.liquidity_pool_address =
      c1_state.token_balances.balances c1_state.liquidity_pool_address ∧
    contract_pools_have_liquidity c8_state3 = true ∧
    contract_pools_have_liquidity c5_state1 = true ∧
    pool_phase_ok c5_state2 :=
  ⟨claim_C8_amended.1 0 1 2 3 c7_state (by rfl),
   claim_C8_amended.2.1 c1_state 5 4 9 (by decide),
   claim_C8_amended.2.2.1 c1_state c1_state3 5 1 10 0 (by decide) (by rfl),
   claim_C8_amended.2.2.2.1 c7_state 5 1 4 0 (by decide),
   claim_C8_amended.2.2.2.2.1 c7_state c7_state 5 1 3 (by decide),
   claim_C8_amended.2.2.2.2.2.1 c8e_state c8e_state2 5 2 (by decide) (by decide) (by rfl),
   (claim_C8_amended.2.2.2.2.2.2.1 c1_state c3_state_dep 5 Token.A 7 (by decide) (by rfl)).1,
   (claim_C8_amended.2.2.2.2.2.2.2.1 c1_state c8w_state 5 1 10 (by decide) (by rfl)).1,
   claim_C8_amended.2.2.2.2.2.2.2.2.1 c8_state2 c8_state3 5 4 9 (by decide) (by rfl),
   claim_C8_amended.2.2.2.2.2.2.2.2.2.1 c5_state c5_state1 5 1 10 (by decide) (by rfl),
   claim_C8_amended.2.2.2.2.2.2.2.2.2.2 c5_state1 c5_state2 5 5 (by decide) (by decide)
     (by rfl)⟩

theorem sqrtGo_eq (n : Nat) : ∀ fuel r, r ≤ Nat.sqrt n → Nat.sqrt n ≤ r + fuel →
    sqrtGo n fuel r = Nat.sqrt n := by
  intro fuel
  induction fuel with
  | zero =>
    intro r h1 h2
    unfold sqrtGo
    omega
  | succ fuel ih =>
    intro r h1 h2
    unfold sqrtGo
    by_cases hc : (r + 1) * (r + 1) ≤ n
    · rw [if_pos hc]
      exact ih (r + 1) (Nat.le_sqrt.mpr hc) (by omega)
    · rw [if_neg hc]
      have h3 : Nat.sqrt n < r + 1 := by
        by_contra hcon
        push_neg at hcon
        exact hc (Nat.le_sqrt.mp hcon)
      omega

theorem u128_sqrt_eq_sqrt (n : Nat) : u128_sqrt n = Nat.sqrt n := by
  unfold u128_sqrt
  have hle := Nat.sqrt_le_self n
  exact sqrtGo_eq n n 0 (Nat.zero_le _) (by omega)

end AMM

namespace Zk

theorem zk_assert_ok_elim {st : ContractState} {u : PUnit}
    (h : assert_invariants st = Except.ok u) :
    st.swap_constant ≤
      (get_pools st).for_token ZToken.A * (get_pools st).for_token ZToken.B := by
  unfold assert_invariants at h
  split at h
  · split at h
    · assumption
    · exact Except.noConfusion h
  · exact Except.noConfusion h

/-- Claim C9: when the dequeued swap fails with a caught error (unknown
balance entry, insufficient balance, pool overflow or pool underflow), the
opened-variable handler returns exactly the popped pre-swap state: balances,
swap constant and closed flag are untouched, the failed worklist entry is
consumed, no outbound event is emitted (so the sender never sees the
failure), the consumed variables are deleted and the next queued swap, if
any, is started. -/
theorem claim_C9_failed_swap_rollback :
    ∀ st : ContractState, ∀ entry : WorklistEntry, ∀ rest : List WorklistEntry,
    ∀ aad : AmountAndDirection, ∀ ov : Nat, ∀ m : ZkMsg,
    st.worklist = entry :: rest →
    perform_swap { st with worklist := rest, unused_variables := [] } entry.sender
      (deduce_from_to_tokens_b aad.is_from_a).fst
      (deduce_from_to_tokens_b aad.is_from_a).snd aad.amount =
      Except.error (ZErr.caught m) →
    swap_opened st aad ov =
      Except.ok ({ st with worklist := rest, unused_variables := [] }, [],
        ZkStateChange.outputComplete (st.unused_variables ++ [entry.variable_id, ov]) ::
          (match rest with
           | [] => []
           | e2 :: _ => [ZkStateChange.startComputation e2.variable_id])) := by
  intro st entry rest aad ov m hwl hps
  unfold swap_opened
  rw [hwl]
  simp only [hps]
  cases rest with
  | nil => simp [start_next_in_queue]
  | cons e2 r2 => simp [start_next_in_queue]

/-- Claim C10: the ceiling division helper returns exactly the ceiling of
the quotient for a non-zero denominator and an error for a zero denominator;
the returned ceiling q satisfies k ≤ d * q, which is why every successful zk
swap (whose output-side pool is set to the ceiling of the swap constant over
the enlarged input-side pool) leaves the pool product at least the swap
constant recorded when the contract opened. -/
theorem claim_C10_zk_invariant :
    (∀ n d : Nat, 0 < d →
      u128_division_ceil n d = Except.ok ((n + d - 1) / d)) ∧
    (∀ n : Nat, u128_division_ceil n 0 =
      Except.error (ZErr.caught ZkMsg.divisionByZero)) ∧
    (∀ k d q : Nat, u128_division_ceil k d = Except.ok q → k ≤ d * q) ∧
    (∀ st st2 : ContractState, ∀ sender : Nat, ∀ tf tt : ZToken, ∀ x : Nat,
      perform_swap st sender tf tt x = Except.ok st2 →
      st.swap_constant ≤
        (get_pools st2).for_token ZToken.A * (get_pools st2).for_token ZToken.B) := by
  refine ⟨?_, ?_, ?_, ?_⟩
  · intro n d hd
    unfold u128_division_ceil
    rw [if_neg (by omega)]
    congr 1
    have hn := Nat.div_add_mod n d
    have hm : n % d < d := Nat.mod_lt _ hd
    by_cases hz : n % d = 0
    · rw [if_pos hz]
      have h1 : n + d - 1 = d * (n / d) + (d - 1) := by omega
      rw [h1, Nat.mul_add_div hd]
      have h2 : (d - 1) / d = 0 := Nat.div_eq_of_lt (by omega)
      omega
    · rw [if_neg hz]
      have hdd : d * (n / d + 1) = d * (n / d) + d := by ring
      have h1 : n + d - 1 = d * (n / d + 1) + (n % d - 1) := by omega
      rw [h1, Nat.mul_add_div hd]
      have h2 : (n % d - 1) / d = 0 := Nat.div_eq_of_lt (by omega)
      omega
  · intro n
    unfold u128_division_ceil
    rw [if_pos rfl]
  · intro k d q h
    unfold u128_division_ceil at h
    split at h
    · exact Except.noConfusion h
    · rename_i hd
      cases h
      have hn := Nat.div_add_mod k d
      have hm : k % d < d := Nat.mod_lt _ (Nat.pos_of_ne_zero hd)
      by_cases hz : k % d = 0
      · rw [if_pos hz]
        have hdd : d * (k / d + 0) = d * (k / d) := by ring
        omega
      · rw [if_neg hz]
        have hdd : d * (k / d + 1) = d * (k / d) + d := by ring
        omega
  · intro st st2 sender tf tt x h
    unfold perform_swap at h
    cases hc : calculate_token_to_amount st tf tt x with
    | error e =>
      simp only [hc] at h
      exact Except.noConfusion h
    | ok recv =>
      simp only [hc] at h
      cases h1 : st.balances.transfer_from_to sender st.token_pool_address tf x with
      | error e =>
        simp only [h1] at h
        exact Except.noConfusion h
      | ok b1 =>
        simp only [h1] at h
        cases h2 : b1.transfer_from_to st.token_pool_address sender tt recv with
        | error e =>
          simp only [h2] at h
          exact Except.noConfusion h
        | ok b2 =>
          simp only [h2] at h
          cases ha : assert_invariants { st with balances := b2 } with
          | error e =>
            simp only [ha] at h
            exact Except.noConfusion h
          | ok u =>
            simp only [ha] at h
            cases h
            exact zk_assert_ok_elim ha

end Zk

namespace Zk

/-- Witness for claim C9: on the concrete zk state the queued swap from the
balance-less user 5 fails, and the handler returns the rolled-back state,
no events, and the deletion of the consumed variables. -/
theorem claim_C9_failed_swap_rollback_witness :
    swap_opened c9_state ⟨4, true⟩ 11 =
      Except.ok ({ c9_state with worklist := [], unused_variables := [] }, [],
        [ZkStateChange.outputComplete [3, 7, 11]]) := by
  have h := claim_C9_failed_swap_rollback c9_state ⟨7, 5⟩ [] ⟨4, true⟩ 11
    ZkMsg.needExistingBalance (by rfl) (by rfl)
  exact h

/-- Witness for claim C10 at concrete inputs: ceiling division of 7 by 2,
its lower bound, and the preserved product after the concrete zk swap. -/
theorem claim_C10_zk_invariant_witness :
    u128_division_ceil 7 2 = Except.ok ((7 + 2 - 1) / 2) ∧
    7 ≤ 2 * 4 ∧
    c10_state.swap_constant ≤
      (get_pools c10_state2).for_token ZToken.A *
      (get_pools c10_state2).for_token ZToken.B :=
  ⟨claim_C10_zk_invariant.1 7 2 (by decide),
   claim_C10_zk_invariant.2.2.1 7 2 4 (by rfl),
   claim_C10_zk_invariant.2.2.2 c10_state c10_state2 5 ZToken.A ZToken.B 5 (by rfl)⟩

end Zk
